import Mathlib

/-!
Shallow embedding of the whombat data-access layer (`whombat.api`):
the generic `BaseAPI` CRUD object with its LRU cache (`api/common/base.py`),
the evaluation-set API (`api/evaluation_sets.py`), the user-run API
(`api/user_runs.py`) and the sound-event-prediction API
(`api/sound_event_predictions.py`), together with theorems checking the
behavioural claims made by the specification.

UUIDs and timestamps are modelled as `Nat`; database sessions are modelled
by explicit state passing; exceptions are modelled with `Except`.
-/

set_option maxHeartbeats 1000000

namespace Whombat

/-- Errors raised by the API layer: `NotFoundError`, Python's `KeyError`
(raised by `del cache[pk]` on a missing key), `DuplicateObjectError`
and `ValueError`. -/
inductive ApiErr where
  | notFound
  | keyError
  | duplicate
  | valueError
  deriving DecidableEq, Repr

/-- Model of `cachetools.LRUCache` with `Nat` keys.  `entries` is ordered
most-recently-used first; `maxsize` is the capacity bound. -/
structure LRUCache (V : Type) where
  entries : List (Nat × V)
  maxsize : Nat
  deriving Repr

namespace LRUCache

variable {V : Type}

/-- A fresh, empty cache (`cachetools.LRUCache(maxsize=n)`). -/
def empty (n : Nat) : LRUCache V := ⟨[], n⟩

/-- `pk in cache` (`__contains__`): membership test, no recency update. -/
def containsKey (c : LRUCache V) (k : Nat) : Bool :=
  c.entries.any (fun p => p.1 == k)

/-- Pure lookup of the stored value for a key (no recency update). -/
def lookup (c : LRUCache V) (k : Nat) : Option V :=
  (c.entries.find? (fun p => p.1 == k)).map Prod.snd

/-- `cache[pk]` (`__getitem__`): on a hit returns the value and moves the
key to most-recently-used position; on a miss returns `none`
(Python raises `KeyError`). -/
def getitem (c : LRUCache V) (k : Nat) : Option (V × LRUCache V) :=
  match c.entries.find? (fun p => p.1 == k) with
  | none => none
  | some p =>
      some (p.2, ⟨(k, p.2) :: c.entries.filter (fun q => q.1 != k), c.maxsize⟩)

/-- `cache[pk] = v` (`__setitem__`): an existing key is updated and touched;
a new key is inserted, evicting the least-recently-used entry when the
cache is full. -/
def setitem (c : LRUCache V) (k : Nat) (v : V) : LRUCache V :=
  if c.containsKey k then
    ⟨(k, v) :: c.entries.filter (fun q => q.1 != k), c.maxsize⟩
  else
    ⟨(k, v) :: (if c.maxsize ≤ c.entries.length then c.entries.dropLast
                else c.entries), c.maxsize⟩

/-- `del cache[pk]` (`__delitem__`): removes the key, or returns `none`
(Python raises `KeyError`) when absent. -/
def delitem (c : LRUCache V) (k : Nat) : Option (LRUCache V) :=
  if c.containsKey k then
    some ⟨c.entries.filter (fun q => q.1 != k), c.maxsize⟩
  else
    none

end LRUCache

/-! ## The generic `BaseAPI` CRUD object (`whombat/api/common/base.py`)

The entity type is abstracted as a row with a stable external identifier
(`uuid`) and one opaque data column (`payload`); schema validation
(`model_validate`) is the identity on this representation. -/

/-- A generic entity row/schema handled by `BaseAPI`: the stable external
identifier (`uuid`, the primary key used by `_get_pk_condition` and
`_get_pk_from_obj`) plus the remaining columns abstracted as `payload`. -/
structure EObj where
  uuid : Nat
  payload : Nat
  deriving DecidableEq, Repr

/-- Modelled from the spec: `whombat.api.common.utils.get_object` (absent from
`src/`, only its callers in `base.py` are): fetch the row matching the
condition — for `BaseAPI` always `model.uuid == pk` — raising
`NotFoundError` when none matches. -/
def get_object (db : List EObj) (pk : Nat) : Except ApiErr EObj :=
  match db.find? (fun o => o.uuid == pk) with
  | some o => .ok o
  | none => .error .notFound

/-- Modelled from the spec: `whombat.api.common.utils.create_object` (absent
from `src/`): insert a row built from the create schema; the `unique=True`
constraint on `uuid` makes inserting an already-present UUID fail with
`DuplicateObjectError`. -/
def create_object (db : List EObj) (data : EObj) : Except ApiErr (List EObj) :=
  if db.any (fun o => o.uuid == data.uuid) then .error .duplicate
  else .ok (db ++ [data])

/-- Overwrite the data columns of a row when it is the one matching the
update condition. -/
def setPayload (pk payload : Nat) : EObj → EObj :=
  fun r => if r.uuid == pk then { r with payload := payload } else r

/-- Modelled from the spec: `whombat.api.common.utils.update_object` (absent
from `src/`): overwrite the data columns of the row matching the condition,
raising `NotFoundError` when none matches. -/
def update_object (db : List EObj) (pk : Nat) (payload : Nat) :
    Except ApiErr (EObj × List EObj) :=
  match db.find? (fun o => o.uuid == pk) with
  | some o => .ok ({ o with payload := payload }, db.map (setPayload pk payload))
  | none => .error .notFound

/-- Modelled from the spec: `whombat.api.common.utils.delete_object` (absent
from `src/`): fetch and remove the row matching the condition, raising
`NotFoundError` when none matches; returns the deleted row. -/
def delete_object (db : List EObj) (pk : Nat) : Except ApiErr (EObj × List EObj) :=
  match db.find? (fun o => o.uuid == pk) with
  | some o => .ok (o, db.eraseP (fun r => r.uuid == pk))
  | none => .error .notFound

/-- The state observable through one `BaseAPI` instance: the entity's table
and the instance's LRU cache (`BaseAPI.__init__` sets `maxsize=1000`). -/
structure ApiState where
  db : List EObj
  cache : LRUCache EObj
  deriving Repr

/-- A freshly constructed `BaseAPI` instance over an empty table. -/
def initApiState : ApiState := ⟨[], LRUCache.empty 1000⟩

namespace BaseAPI

/-- `BaseAPI.get`: `if pk in self._cache: return self._cache[pk]` — serve from
the cache when present (a hit also refreshes recency) — otherwise fetch the
row by UUID, validate it and insert it into the cache under `pk`. -/
def get (s : ApiState) (pk : Nat) : Except ApiErr EObj × ApiState :=
  match s.cache.getitem pk with
  | some (v, c') => (.ok v, ⟨s.db, c'⟩)
  | none =>
      match get_object s.db pk with
      | .ok o => (.ok o, ⟨s.db, s.cache.setitem pk o⟩)
      | .error e => (.error e, s)

/-- `BaseAPI.create`: insert the row, validate it, and store it in the cache
under `self._get_pk_from_obj(obj)`, i.e. the object's UUID. -/
def create (s : ApiState) (data : EObj) : Except ApiErr EObj × ApiState :=
  match create_object s.db data with
  | .ok db' => (.ok data, ⟨db', s.cache.setitem data.uuid data⟩)
  | .error e => (.error e, s)

/-- `BaseAPI.update`: update the row whose UUID is `obj.uuid`, validate the
result and refresh the cache entry under that UUID. -/
def update (s : ApiState) (obj : EObj) (payload : Nat) :
    Except ApiErr EObj × ApiState :=
  match update_object s.db obj.uuid payload with
  | .ok (o', db') => (.ok o', ⟨db', s.cache.setitem obj.uuid o'⟩)
  | .error e => (.error e, s)

/-- `BaseAPI.delete`: remove the row whose UUID is `obj.uuid` from the
database, then run `del self._cache[pk]` — which raises `KeyError` when the
UUID is not a cache key, after the database row is already deleted. -/
def delete (s : ApiState) (obj : EObj) : Except ApiErr EObj × ApiState :=
  match delete_object s.db obj.uuid with
  | .ok (o, db') =>
      match s.cache.delitem obj.uuid with
      | some c' => (.ok o, ⟨db', c'⟩)
      | none => (.error .keyError, ⟨db', s.cache⟩)
  | .error e => (.error e, s)

/-- Insertion step of the sort modelling `ORDER BY sort_by`. -/
def insertSorted (f : EObj → Nat) (v : EObj) : List EObj → List EObj
  | [] => [v]
  | w :: ws => if f v ≤ f w then v :: w :: ws else w :: insertSorted f v ws

/-- Sort by a key function (model of `ORDER BY sort_by`). -/
def sortByKey (f : EObj → Nat) (l : List EObj) : List EObj :=
  l.foldr (insertSorted f) []

/-- Conjunction of the `filters` applied to the query (`WHERE` clauses). -/
def applyFilters (db : List EObj) (filters : List (EObj → Bool)) : List EObj :=
  db.filter (fun o => filters.all (fun f => f o))

/-- `ORDER BY sort_by` when a sort key is given. -/
def applySort (sortKey : Option (EObj → Nat)) (l : List EObj) : List EObj :=
  match sortKey with
  | some f => sortByKey f l
  | none => l

/-- `OFFSET offset`; a negative or missing offset is not applied. -/
def applyOffset (offset : Option Int) (l : List EObj) : List EObj :=
  match offset with
  | some i => if 0 ≤ i then l.drop i.toNat else l
  | none => l

/-- `LIMIT limit`; a negative or missing limit is not applied (the repo calls
`get_many` with `limit=-1` for "all"). -/
def applyLimit (limit : Option Int) (l : List EObj) : List EObj :=
  match limit with
  | some i => if 0 ≤ i then l.take i.toNat else l
  | none => l

/-- Modelled from the spec: `whombat.api.common.utils.get_objects` (absent
from `src/`), as described by the `BaseAPI.get_many` docstring: apply the
filters, sort, then apply offset and limit; the returned count is "the
number of objects that would have been returned if no limit or offset was
applied". -/
def get_objects (db : List EObj) (filters : List (EObj → Bool))
    (limit offset : Option Int) (sortKey : Option (EObj → Nat)) :
    List EObj × Nat :=
  (applyLimit limit (applyOffset offset (applySort sortKey (applyFilters db filters))),
   (applyFilters db filters).length)

/-- `BaseAPI.get_many`: fetch page and total count via `get_objects` and
validate each returned row (the identity in this model). -/
def get_many (s : ApiState) (filters : List (EObj → Bool))
    (limit offset : Option Int) (sortKey : Option (EObj → Nat)) :
    List EObj × Nat :=
  get_objects s.db filters limit offset sortKey

end BaseAPI

/-- One call against a `BaseAPI` instance (the operations that touch the
instance's cache). -/
inductive ApiOp where
  | get (pk : Nat)
  | create (data : EObj)
  | update (obj : EObj) (payload : Nat)
  | delete (obj : EObj)
  deriving Repr

/-- The state reached after one `BaseAPI` call (exceptions propagate to the
caller but the side effects on database and cache persist). -/
def stepOp (s : ApiState) : ApiOp → ApiState
  | .get pk => (BaseAPI.get s pk).2
  | .create d => (BaseAPI.create s d).2
  | .update o p => (BaseAPI.update s o p).2
  | .delete o => (BaseAPI.delete s o).2

/-- The state reached after a sequence of `BaseAPI` calls. -/
def runOps (s : ApiState) (ops : List ApiOp) : ApiState := ops.foldl stepOp s

/-- Every cache entry is keyed by its object's UUID and agrees with a fresh
fetch-and-validate against the current database. -/
def cacheCoherent (s : ApiState) : Prop :=
  ∀ p ∈ s.cache.entries, p.1 = p.2.uuid ∧ get_object s.db p.1 = .ok p.2

/-- Invariant of a `BaseAPI` instance: capacity 1000, bounded occupancy, and
cache/database coherence. -/
def apiInv (s : ApiState) : Prop :=
  s.cache.maxsize = 1000 ∧ s.cache.entries.length ≤ 1000 ∧ cacheCoherent s

/-- `BaseAPI._update_cache`: `pk = self._get_pk_from_obj(obj)` (the object's
UUID) then `self._cache[pk] = obj` — the primitive through which every
cache-updating domain operation (`EvaluationSetAPI.add_tag`/`remove_tag`,
`from_soundevent`, ...) writes the instance's cache. -/
def BaseAPI.update_cache (s : ApiState) (obj : EObj) : ApiState :=
  ⟨s.db, s.cache.setitem obj.uuid obj⟩

/-- One call against a `BaseAPI` instance, over the full alphabet of
cache-touching operations: the four `BaseAPI` verbs plus `_update_cache`,
as invoked by the cache-updating domain operations with an arbitrary schema
object (e.g. the `model_copy` produced by `add_tag`/`remove_tag`). -/
inductive ApiOpFull where
  | base (op : ApiOp)
  | updateCache (obj : EObj)
  deriving Repr

/-- The state reached after one call from the full alphabet. -/
def stepOpFull (s : ApiState) : ApiOpFull → ApiState
  | .base op => stepOp s op
  | .updateCache obj => BaseAPI.update_cache s obj

/-- The state reached after a sequence of calls from the full alphabet. -/
def runOpsFull (s : ApiState) (ops : List ApiOpFull) : ApiState :=
  ops.foldl stepOpFull s

/-- The cache-shape invariant of claim C3: capacity 1000, bounded occupancy,
and every entry keyed by its object's UUID.  Unlike `apiInv` it claims no
cache/database coherence, so it survives `_update_cache` with objects the
domain operations modified in memory. -/
def cacheKeyed (c : LRUCache EObj) : Prop :=
  c.maxsize = 1000 ∧ c.entries.length ≤ 1000 ∧
    ∀ p ∈ c.entries, p.1 = p.2.uuid


/-! ## Evaluation sets (`whombat/api/evaluation_sets.py`)

The `EvaluationSetAPI` specialisation of `BaseAPI`, with the tables it
touches (`models.EvaluationSet`, `models.EvaluationSetTag`, the join to
annotated clips) and the `soundevent` interchange format. -/

/-- An internal tag (`schemas.Tag`): serial id plus key/value. -/
structure Tag where
  id : Nat
  key : String
  value : String
  deriving DecidableEq, Repr

/-- A tag in `soundevent` format (`soundevent.data.Tag`): key/value only. -/
structure SETag where
  key : String
  value : String
  deriving DecidableEq, Repr

/-- Modelled from the spec: `whombat.api.tags.to_soundevent` (module absent
from `src/`): structural translation dropping the internal id. -/
def tagToSoundevent (t : Tag) : SETag := ⟨t.key, t.value⟩

/-- Modelled from the spec: `whombat.api.tags.from_soundevent` (module absent
from `src/`): idempotent get-or-create of a tag by its key/value pair,
returning the tag together with the updated table and serial counter. -/
def tagFromSoundevent (tagsDb : List Tag) (nextId : Nat) (t : SETag) :
    Tag × List Tag × Nat :=
  match tagsDb.find? (fun u => u.key == t.key && u.value == t.value) with
  | some u => (u, tagsDb, nextId)
  | none =>
      (⟨nextId, t.key, t.value⟩, tagsDb ++ [⟨nextId, t.key, t.value⟩], nextId + 1)

/-- An annotated clip in `soundevent` format; only its identity matters for
the claims under check. -/
structure SEClipAnn where
  uuid : Nat
  deriving DecidableEq, Repr

/-- An internal annotated clip (`schemas.ClipAnnotations` in the source,
reduced to its identity). -/
structure ClipAnn where
  id : Nat
  uuid : Nat
  deriving DecidableEq, Repr

/-- `soundevent.data.EvaluationSet`. -/
structure SEEvaluationSet where
  uuid : Nat
  created_on : Nat
  name : String
  description : String
  evaluation_tags : List SETag
  clip_anns : List SEClipAnn
  deriving DecidableEq, Repr

/-- A database row of `models.EvaluationSet`. -/
structure EvaluationSetRow where
  id : Nat
  uuid : Nat
  created_on : Nat
  name : String
  description : String
  deriving DecidableEq, Repr

/-- `schemas.EvaluationSet`: the row with its tag relationship materialised. -/
structure EvaluationSetSchema where
  id : Nat
  uuid : Nat
  created_on : Nat
  name : String
  description : String
  tags : List Tag
  deriving DecidableEq, Repr

/-- State touched by `EvaluationSetAPI`: the relevant tables, the instance's
LRU cache and the database's next serial id. -/
structure ESState where
  evalsets : List EvaluationSetRow
  tagsDb : List Tag
  esTagRows : List (Nat × Nat)
  clipAnns : List ClipAnn
  esAnnRows : List (Nat × Nat)
  cache : LRUCache EvaluationSetSchema
  nextId : Nat
  deriving Repr

/-- The tags joined to one evaluation set (`models.EvaluationSetTag` rows
resolved against the tag table). -/
def esTagsOf (esTagRows : List (Nat × Nat)) (tagsDb : List Tag) (esId : Nat) :
    List Tag :=
  (esTagRows.filter (fun p => p.1 == esId)).filterMap
    (fun p => tagsDb.find? (fun t => t.id == p.2))

/-- `schemas.EvaluationSet.model_validate` applied to a database row. -/
def esValidate (s : ESState) (row : EvaluationSetRow) : EvaluationSetSchema :=
  ⟨row.id, row.uuid, row.created_on, row.name, row.description,
   esTagsOf s.esTagRows s.tagsDb row.id⟩

/-- `BaseAPI.get` specialised to `EvaluationSetAPI`: cache first, then fetch
by UUID, validate and cache. -/
def esGet (s : ESState) (pk : Nat) :
    Except ApiErr EvaluationSetSchema × ESState :=
  match s.cache.getitem pk with
  | some (v, c') => (.ok v, { s with cache := c' })
  | none =>
      match s.evalsets.find? (fun r => r.uuid == pk) with
      | some row =>
          (.ok (esValidate s row),
           { s with cache := s.cache.setitem pk (esValidate s row) })
      | none => (.error .notFound, s)

/-- `BaseAPI.create` specialised to `EvaluationSetAPI`: insert the row built
from `schemas.EvaluationSetCreate`, validate it and cache it by UUID. -/
def esCreate (s : ESState) (uuid created_on : Nat) (name description : String) :
    Except ApiErr EvaluationSetSchema × ESState :=
  if s.evalsets.any (fun r => r.uuid == uuid) then (.error .duplicate, s)
  else
    let row : EvaluationSetRow := ⟨s.nextId, uuid, created_on, name, description⟩
    let s' : ESState :=
      { s with evalsets := s.evalsets ++ [row], nextId := s.nextId + 1 }
    let obj := esValidate s' row
    (.ok obj, { s' with cache := s'.cache.setitem obj.uuid obj })

/-- `BaseAPI._update_cache`: store the object under its UUID. -/
def esUpdateCache (s : ESState) (obj : EvaluationSetSchema) : ESState :=
  { s with cache := s.cache.setitem obj.uuid obj }

/-- `EvaluationSetAPI.from_soundevent`: get by UUID; on `NotFoundError` run
`_create_from_soundevent` (which copies only uuid, created_on, name and
description); finally `_update_cache`.  The code never calls
`_update_from_soundevent`, so neither `evaluation_tags` nor the annotated
clips of `data` are imported. -/
def esFromSoundevent (s : ESState) (d : SEEvaluationSet) :
    Except ApiErr EvaluationSetSchema × ESState :=
  match esGet s d.uuid with
  | (.ok obj, s1) => (.ok obj, esUpdateCache s1 obj)
  | (.error .notFound, s1) =>
      match esCreate s1 d.uuid d.created_on d.name d.description with
      | (.ok obj, s2) => (.ok obj, esUpdateCache s2 obj)
      | (.error e, s2) => (.error e, s2)
  | (.error e, s1) => (.error e, s1)

/-- Modelled from the spec: `whombat.api.clip_annotations.to_soundevent`
(module absent from `src/`): structural translation to `soundevent`
format, reduced to the identity fields used here. -/
def clipAnnToSoundevent (a : ClipAnn) : SEClipAnn := ⟨a.uuid⟩

/-- The annotated clips joined to one evaluation set
(`EvaluationSetAPI.get_clip_annotations` with `limit=-1`). -/
def esClipAnnsOf (s : ESState) (esId : Nat) : List ClipAnn :=
  (s.esAnnRows.filter (fun p => p.1 == esId)).filterMap
    (fun p => s.clipAnns.find? (fun a => a.id == p.2))

/-- `EvaluationSetAPI.to_soundevent`. -/
def esToSoundevent (s : ESState) (obj : EvaluationSetSchema) :
    SEEvaluationSet :=
  ⟨obj.uuid, obj.created_on, obj.name, obj.description,
   obj.tags.map tagToSoundevent,
   (esClipAnnsOf s obj.id).map clipAnnToSoundevent⟩

/-- `EvaluationSetAPI.add_tag`: `ValueError` when the tag is already in
`obj.tags`; otherwise create the `models.EvaluationSetTag` join row, return
a copy of `obj` with the tag appended and refresh the cache entry under
`obj.uuid`. -/
def esAddTag (s : ESState) (obj : EvaluationSetSchema) (tag : Tag) :
    Except ApiErr EvaluationSetSchema × ESState :=
  if tag ∈ obj.tags then (.error .valueError, s)
  else if s.esTagRows.any (fun p => p == (obj.id, tag.id)) then
    (.error .duplicate, s)
  else
    let s' := { s with esTagRows := s.esTagRows ++ [(obj.id, tag.id)] }
    let obj' := { obj with tags := obj.tags ++ [tag] }
    (.ok obj', { s' with cache := s'.cache.setitem obj'.uuid obj' })

/-- `EvaluationSetAPI.remove_tag`: `ValueError` when the tag is not in
`obj.tags`; otherwise delete the join row (`NotFoundError` when it is
absent), return a copy of `obj` with the tags of that id filtered out and
refresh the cache entry under `obj.uuid`. -/
def esRemoveTag (s : ESState) (obj : EvaluationSetSchema) (tag : Tag) :
    Except ApiErr EvaluationSetSchema × ESState :=
  if tag ∈ obj.tags then
    match s.esTagRows.find? (fun p => p == (obj.id, tag.id)) with
    | none => (.error .notFound, s)
    | some _ =>
        let s' :=
          { s with esTagRows := s.esTagRows.eraseP (fun p => p == (obj.id, tag.id)) }
        let obj' := { obj with tags := obj.tags.filter (fun t => t.id != tag.id) }
        (.ok obj', { s' with cache := s'.cache.setitem obj'.uuid obj' })
  else (.error .valueError, s)

/-- The empty database with a fresh `EvaluationSetAPI` instance. -/
def esInit : ESState := ⟨[], [], [], [], [], LRUCache.empty 1000, 0⟩

/-- Cache coherence for `EvaluationSetAPI`: every cache entry is keyed by its
object's UUID and equals the validated current database row of that UUID. -/
def esWF (s : ESState) : Prop :=
  ∀ p ∈ s.cache.entries, p.1 = p.2.uuid ∧
    ∃ row, s.evalsets.find? (fun r => r.uuid == p.1) = some row ∧
      p.2 = esValidate s row

/-- Import `d` and immediately export the result (`to_soundevent` composed
with `from_soundevent`); `none` when the import raised. -/
def esRoundtrip (s : ESState) (d : SEEvaluationSet) : Option SEEvaluationSet :=
  match esFromSoundevent s d with
  | (.ok obj, s') => some (esToSoundevent s' obj)
  | (.error _, _) => none

/-! ## User runs (`whombat/api/user_runs.py`) -/

/-- A user in `soundevent` format, reduced to its identity. -/
structure SEUser where
  uuid : Nat
  deriving DecidableEq, Repr

/-- An internal user row. -/
structure UserRow where
  id : Nat
  uuid : Nat
  deriving DecidableEq, Repr

/-- A clip prediction in `soundevent` format, reduced to its identity; its
inner contents are handled by `clip_predictions.from_soundevent` and do not
affect the association claims checked here. -/
structure SEClipPrediction where
  uuid : Nat
  deriving DecidableEq, Repr

/-- `soundevent.data.PredictionSet`. -/
structure SEPredictionSet where
  uuid : Nat
  created_on : Nat
  clip_predictions : List SEClipPrediction
  deriving DecidableEq, Repr

/-- An internal clip prediction row (`models.ClipPrediction`). -/
structure ClipPredRow where
  id : Nat
  uuid : Nat
  deriving DecidableEq, Repr

/-- A database row of `models.UserRun`; `schemas.UserRun` validates to the
same data, so the row doubles as the schema object. -/
structure UserRunRow where
  id : Nat
  uuid : Nat
  created_on : Nat
  user_id : Nat
  deriving DecidableEq, Repr

/-- State touched by `UserRunAPI`: the user-run, user and clip-prediction
tables, the `models.UserRunPrediction` join rows, the instance's LRU cache
and the next serial id. -/
structure URState where
  userRuns : List UserRunRow
  users : List UserRow
  clipPreds : List ClipPredRow
  urPredRows : List (Nat × Nat)
  cache : LRUCache UserRunRow
  nextId : Nat
  deriving Repr

/-- Modelled from the spec: `whombat.api.users.from_soundevent` (module
absent from `src/`): idempotent get-or-create of a user by UUID. -/
def userFromSoundevent (s : URState) (u : SEUser) : UserRow × URState :=
  match s.users.find? (fun r => r.uuid == u.uuid) with
  | some r => (r, s)
  | none =>
      (⟨s.nextId, u.uuid⟩,
       { s with users := s.users ++ [⟨s.nextId, u.uuid⟩],
                nextId := s.nextId + 1 })

/-- Modelled from the spec: `whombat.api.clip_predictions.from_soundevent`
(module absent from `src/`): idempotent upsert of a clip prediction by UUID
(create-if-absent by UUID, else fetch). -/
def clipPredFromSoundevent (s : URState) (cp : SEClipPrediction) :
    ClipPredRow × URState :=
  match s.clipPreds.find? (fun r => r.uuid == cp.uuid) with
  | some r => (r, s)
  | none =>
      (⟨s.nextId, cp.uuid⟩,
       { s with clipPreds := s.clipPreds ++ [⟨s.nextId, cp.uuid⟩],
                nextId := s.nextId + 1 })

/-- `UserRunAPI.add_clip_prediction`: create the `models.UserRunPrediction`
join row; a `DuplicateObjectError` is re-raised only when `raise_if_exists`
is set, otherwise swallowed; the run is returned unchanged either way. -/
def urAddClipPrediction (s : URState) (run : UserRunRow) (cp : ClipPredRow)
    (raiseIfExists : Bool) : Except ApiErr UserRunRow × URState :=
  if s.urPredRows.any (fun p => p == (run.id, cp.id)) then
    if raiseIfExists then (.error .duplicate, s) else (.ok run, s)
  else (.ok run, { s with urPredRows := s.urPredRows ++ [(run.id, cp.id)] })

/-- Loop body of `UserRunAPI.update_from_soundevent` over the prediction
set's clip predictions (the error branch is unreachable because
`raise_if_exists` is left at its default `False`). -/
def urUpdateLoop (s : URState) (run : UserRunRow) :
    List SEClipPrediction → UserRunRow × URState
  | [] => (run, s)
  | cp :: rest =>
      let pr := clipPredFromSoundevent s cp
      match urAddClipPrediction pr.2 run pr.1 false with
      | (.ok run', s2) => urUpdateLoop s2 run' rest
      | (.error _, s2) => (run, s2)

/-- `UserRunAPI.update_from_soundevent`: import every clip prediction of the
prediction set and associate it with the run. -/
def urUpdateFromSoundevent (s : URState) (run : UserRunRow)
    (ps : SEPredictionSet) : UserRunRow × URState :=
  urUpdateLoop s run ps.clip_predictions

/-- `BaseAPI.get` specialised to `UserRunAPI`. -/
def urGet (s : URState) (pk : Nat) : Except ApiErr UserRunRow × URState :=
  match s.cache.getitem pk with
  | some (v, c') => (.ok v, { s with cache := c' })
  | none =>
      match s.userRuns.find? (fun r => r.uuid == pk) with
      | some row => (.ok row, { s with cache := s.cache.setitem pk row })
      | none => (.error .notFound, s)

/-- `BaseAPI.create` specialised to `UserRunAPI` (`schemas.UserRunCreate`
carries uuid, created_on and user_id). -/
def urCreate (s : URState) (uuid created_on user_id : Nat) :
    Except ApiErr UserRunRow × URState :=
  if s.userRuns.any (fun r => r.uuid == uuid) then (.error .duplicate, s)
  else
    (.ok ⟨s.nextId, uuid, created_on, user_id⟩,
     { s with userRuns := s.userRuns ++ [⟨s.nextId, uuid, created_on, user_id⟩],
              cache := s.cache.setitem uuid ⟨s.nextId, uuid, created_on, user_id⟩,
              nextId := s.nextId + 1 })

/-- `UserRunAPI.from_soundevent`: upsert the user, get-or-create the run by
the prediction set's UUID, then `update_from_soundevent`. -/
def urFromSoundevent (s : URState) (ps : SEPredictionSet) (user : SEUser) :
    Except ApiErr UserRunRow × URState :=
  let us := userFromSoundevent s user
  match urGet us.2 ps.uuid with
  | (.ok run, s2) =>
      let r := urUpdateFromSoundevent s2 run ps
      (.ok r.1, r.2)
  | (.error .notFound, s2) =>
      match urCreate s2 ps.uuid ps.created_on us.1.id with
      | (.ok run, s3) =>
          let r := urUpdateFromSoundevent s3 run ps
          (.ok r.1, r.2)
      | (.error e, s3) => (.error e, s3)
  | (.error e, s2) => (.error e, s2)

/-- Cache coherence for `UserRunAPI`: every cache entry is keyed by its run's
UUID and equals the current database row of that UUID. -/
def urWF (s : URState) : Prop :=
  ∀ p ∈ s.cache.entries, p.1 = p.2.uuid ∧
    s.userRuns.find? (fun r => r.uuid == p.1) = some p.2

/-! ## Sound event predictions (`whombat/api/sound_event_predictions.py`) -/

/-- An internal sound event row, reduced to its identity. -/
structure SoundEventRow where
  id : Nat
  uuid : Nat
  deriving DecidableEq, Repr

/-- A predicted tag in `soundevent` format (`data.PredictedTag`): a tag and a
confidence score (scores are opaque values in this model). -/
structure SEPredictedTag where
  tag : SETag
  score : Nat
  deriving DecidableEq, Repr

/-- A sound event prediction in `soundevent` format
(`data.SoundEventPrediction`); the inner sound event is reduced to its
UUID. -/
structure SESoundEventPrediction where
  uuid : Nat
  sound_event : Nat
  score : Nat
  tags : List SEPredictedTag
  deriving DecidableEq, Repr

/-- A database row of `models.SoundEventPrediction`. -/
structure SEPRow where
  id : Nat
  uuid : Nat
  clip_prediction_id : Nat
  sound_event_id : Nat
  score : Nat
  deriving DecidableEq, Repr

/-- A row of `models.SoundEventPredictionTag`. -/
structure SEPTagRow where
  sound_event_prediction_id : Nat
  tag_id : Nat
  score : Nat
  deriving DecidableEq, Repr

/-- A materialised predicted tag (`schemas.SoundEventPredictionTag` with its
tag resolved). -/
structure PredTag where
  tag : Tag
  score : Nat
  deriving DecidableEq, Repr

/-- `schemas.SoundEventPrediction`: the row with its `predicted_tags`
relationship materialised. -/
structure SEPSchema where
  id : Nat
  uuid : Nat
  score : Nat
  predicted_tags : List PredTag
  deriving DecidableEq, Repr

/-- State touched by the `sound_event_predictions` module: the tables, the
module's by-UUID LRU cache (`caches.cached` with `LRUCache(maxsize=1000)`)
and the next serial id. -/
structure SEPState where
  clipPredRows : List ClipPredRow
  soundEvents : List SoundEventRow
  sepRows : List SEPRow
  sepTagRows : List SEPTagRow
  tagsDb : List Tag
  cacheByUuid : LRUCache SEPSchema
  nextId : Nat
  deriving Repr

/-- The predicted tags of one prediction, materialised from the join rows. -/
def sepTagsOf (sepTagRows : List SEPTagRow) (tagsDb : List Tag)
    (predId : Nat) : List PredTag :=
  (sepTagRows.filter (fun r => r.sound_event_prediction_id == predId)).filterMap
    (fun r => (tagsDb.find? (fun t => t.id == r.tag_id)).map
      (fun t => ⟨t, r.score⟩))

/-- `schemas.SoundEventPrediction.model_validate` applied to a row. -/
def sepValidate (s : SEPState) (row : SEPRow) : SEPSchema :=
  ⟨row.id, row.uuid, row.score, sepTagsOf s.sepTagRows s.tagsDb row.id⟩

/-- `get_by_uuid` with its `caches.cached` decorator: serve from the by-UUID
cache, else fetch the row by UUID, validate it and cache the result. -/
def sepGetByUuid (s : SEPState) (u : Nat) :
    Except ApiErr SEPSchema × SEPState :=
  match s.cacheByUuid.getitem u with
  | some (v, c') => (.ok v, { s with cacheByUuid := c' })
  | none =>
      match s.sepRows.find? (fun r => r.uuid == u) with
      | some row =>
          (.ok (sepValidate s row),
           { s with cacheByUuid := s.cacheByUuid.setitem u (sepValidate s row) })
      | none => (.error .notFound, s)

/-- Modelled from the spec: `whombat.api.sound_events.from_soundevent`
(module absent from `src/`): idempotent upsert of a sound event by UUID. -/
def soundEventFromSoundevent (s : SEPState) (u : Nat) :
    SoundEventRow × SEPState :=
  match s.soundEvents.find? (fun r => r.uuid == u) with
  | some r => (r, s)
  | none =>
      (⟨s.nextId, u⟩,
       { s with soundEvents := s.soundEvents ++ [⟨s.nextId, u⟩],
                nextId := s.nextId + 1 })

/-- `tags.from_soundevent` as used inside the prediction import: idempotent
get-or-create by key/value on this state's tag table. -/
def sepTagFromSoundevent (s : SEPState) (t : SETag) : Tag × SEPState :=
  let r := tagFromSoundevent s.tagsDb s.nextId t
  (r.1, { s with tagsDb := r.2.1, nextId := r.2.2 })

/-- `create` (decorated with `caches.with_update`): insert the row built from
`schemas.SoundEventPredictionCreate`, validate it, update the caches. -/
def sepCreate (s : SEPState)
    (uuid clip_prediction_id sound_event_id score : Nat) :
    Except ApiErr SEPSchema × SEPState :=
  if s.sepRows.any (fun r => r.uuid == uuid) then (.error .duplicate, s)
  else
    let row : SEPRow := ⟨s.nextId, uuid, clip_prediction_id, sound_event_id, score⟩
    let s' : SEPState :=
      { s with sepRows := s.sepRows ++ [row], nextId := s.nextId + 1 }
    let obj := sepValidate s' row
    (.ok obj, { s' with cacheByUuid := s'.cacheByUuid.setitem obj.uuid obj })

/-- `add_tag` (decorated with `caches.with_update`): fetch the prediction by
id; when it already has a predicted tag with `tag_id`, return it validated
without creating any row (regardless of `score`); otherwise create the
`models.SoundEventPredictionTag` row, refresh and validate.  Either way the
returned schema updates the cache. -/
def sepAddTag (s : SEPState) (predId tagId score : Nat) :
    Except ApiErr SEPSchema × SEPState :=
  match s.sepRows.find? (fun r => r.id == predId) with
  | none => (.error .notFound, s)
  | some row =>
      if s.sepTagRows.any (fun r =>
          r.sound_event_prediction_id == predId && r.tag_id == tagId) then
        (.ok (sepValidate s row),
         { s with cacheByUuid :=
             s.cacheByUuid.setitem (sepValidate s row).uuid (sepValidate s row) })
      else
        let s' := { s with sepTagRows := s.sepTagRows ++ [⟨predId, tagId, score⟩] }
        let obj := sepValidate s' row
        (.ok obj, { s' with cacheByUuid := s'.cacheByUuid.setitem obj.uuid obj })

/-- `create_from_soundevent`: resolve the clip prediction, import the inner
sound event, then `create`. -/
def sepCreateFromSoundevent (s : SEPState) (d : SESoundEventPrediction)
    (clip_prediction_id : Nat) : Except ApiErr SEPSchema × SEPState :=
  match s.clipPredRows.find? (fun r => r.id == clip_prediction_id) with
  | none => (.error .notFound, s)
  | some cpr =>
      let se := soundEventFromSoundevent s d.sound_event
      sepCreate se.2 d.uuid cpr.id se.1.id d.score

/-- The tag-import loop of `from_soundevent`: `existing` is the set of
(key, value) pairs computed once from the fetched prediction; tags already
present are skipped, the others are upserted and attached via `add_tag`. -/
def sepImportTags (s : SEPState) (p : SEPSchema)
    (existing : List (String × String)) :
    List SEPredictedTag → Except ApiErr SEPSchema × SEPState
  | [] => (.ok p, s)
  | pt :: rest =>
      if (pt.tag.key, pt.tag.value) ∈ existing then
        sepImportTags s p existing rest
      else
        let tg := sepTagFromSoundevent s pt.tag
        match sepAddTag tg.2 p.id tg.1.id pt.score with
        | (.ok p', s2) => sepImportTags s2 p' existing rest
        | (.error e, s2) => (.error e, s2)

/-- `sound_event_predictions.from_soundevent`: get by UUID, else
`create_from_soundevent`; then attach the predicted tags whose (key, value)
pair is not already present on the prediction. -/
def sepFromSoundevent (s : SEPState) (d : SESoundEventPrediction)
    (clip_prediction_id : Nat) : Except ApiErr SEPSchema × SEPState :=
  match sepGetByUuid s d.uuid with
  | (.ok p, s1) =>
      sepImportTags s1 p
        (p.predicted_tags.map (fun t => (t.tag.key, t.tag.value))) d.tags
  | (.error .notFound, s1) =>
      match sepCreateFromSoundevent s1 d clip_prediction_id with
      | (.ok p, s2) =>
          sepImportTags s2 p
            (p.predicted_tags.map (fun t => (t.tag.key, t.tag.value))) d.tags
      | (.error e, s2) => (.error e, s2)
  | (.error e, s1) => (.error e, s1)

/-- Well-formedness of the prediction state: the by-UUID cache is coherent
with the tables, prediction ids are unique and below the serial counter,
and every predicted-tag row references an existing tag. -/
def sepWF (s : SEPState) : Prop :=
  (∀ p ∈ s.cacheByUuid.entries, p.1 = p.2.uuid ∧
    ∃ row, s.sepRows.find? (fun r => r.uuid == p.1) = some row ∧
      p.2 = sepValidate s row) ∧
  s.sepRows.Pairwise (fun a b => a.id ≠ b.id) ∧
  (∀ r ∈ s.sepRows, r.id < s.nextId) ∧
  (∀ tr ∈ s.sepTagRows,
    (s.tagsDb.find? (fun t => t.id == tr.tag_id)).isSome)

/-- The empty database with fresh prediction caches. -/
def sepInit : SEPState := ⟨[], [], [], [], [], LRUCache.empty 1000, 0⟩


/-! ## Theorems -/

namespace LRUCache

variable {V : Type}

theorem maxsize_setitem (c : LRUCache V) (k : Nat) (v : V) :
    (c.setitem k v).maxsize = c.maxsize := by
  unfold setitem
  split <;> rfl

theorem setitem_entries_hit (c : LRUCache V) (k : Nat) (v : V)
    (hc : c.containsKey k = true) :
    (c.setitem k v).entries = (k, v) :: c.entries.filter (fun q => q.1 != k) := by
  simp [setitem, hc]

theorem setitem_entries_full (c : LRUCache V) (k : Nat) (v : V)
    (hc : c.containsKey k = false) (hfull : c.maxsize ≤ c.entries.length) :
    (c.setitem k v).entries = (k, v) :: c.entries.dropLast := by
  simp [setitem, hc, hfull]

theorem setitem_entries_fresh (c : LRUCache V) (k : Nat) (v : V)
    (hc : c.containsKey k = false) (hfull : ¬ c.maxsize ≤ c.entries.length) :
    (c.setitem k v).entries = (k, v) :: c.entries := by
  simp [setitem, hc, hfull]

theorem length_filter_lt_of_any {l : List (Nat × V)} {k : Nat}
    (h : l.any (fun p => p.1 == k) = true) :
    (l.filter (fun q => q.1 != k)).length < l.length := by
  induction l with
  | nil => simp at h
  | cons x xs ih =>
      by_cases hx : x.1 = k
      · have : (x.1 != k) = false := by simp [hx]
        simp only [List.filter_cons, this]
        exact Nat.lt_succ_of_le (List.length_filter_le _ _)
      · have hx' : (x.1 != k) = true := by simp [hx]
        simp only [List.any_cons, Bool.or_eq_true, beq_iff_eq] at h
        rcases h with h | h
        · exact absurd h hx
        · simp only [List.filter_cons, hx']
          simpa using Nat.succ_lt_succ (ih h)

theorem length_setitem_le (c : LRUCache V) (k : Nat) (v : V)
    (hle : c.entries.length ≤ c.maxsize) (hpos : 1 ≤ c.maxsize) :
    (c.setitem k v).entries.length ≤ c.maxsize := by
  cases hc : c.containsKey k with
  | true =>
      have hlt := length_filter_lt_of_any (l := c.entries) (k := k) hc
      rw [setitem_entries_hit c k v hc, List.length_cons]
      omega
  | false =>
      by_cases hfull : c.maxsize ≤ c.entries.length
      · rw [setitem_entries_full c k v hc hfull, List.length_cons,
          List.length_dropLast]
        omega
      · rw [setitem_entries_fresh c k v hc hfull, List.length_cons]
        omega

theorem not_mem_key_of_not_containsKey {c : LRUCache V} {k : Nat}
    (hc : c.containsKey k = false) : ∀ p ∈ c.entries, p.1 ≠ k := by
  intro p hp
  unfold containsKey at hc
  rw [List.any_eq_false] at hc
  have := hc p hp
  simpa using this

theorem mem_setitem {c : LRUCache V} {k : Nat} {v : V} {p : Nat × V}
    (h : p ∈ (c.setitem k v).entries) :
    p = (k, v) ∨ (p ∈ c.entries ∧ p.1 ≠ k) := by
  cases hc : c.containsKey k with
  | true =>
      rw [setitem_entries_hit c k v hc, List.mem_cons] at h
      rcases h with h | h
      · exact Or.inl h
      · refine Or.inr ⟨List.mem_of_mem_filter h, ?_⟩
        have := List.of_mem_filter h
        simpa using this
  | false =>
      by_cases hfull : c.maxsize ≤ c.entries.length
      · rw [setitem_entries_full c k v hc hfull, List.mem_cons] at h
        rcases h with h | h
        · exact Or.inl h
        · have hmem := List.dropLast_subset _ h
          exact Or.inr ⟨hmem, not_mem_key_of_not_containsKey hc p hmem⟩
      · rw [setitem_entries_fresh c k v hc hfull, List.mem_cons] at h
        rcases h with h | h
        · exact Or.inl h
        · exact Or.inr ⟨h, not_mem_key_of_not_containsKey hc p h⟩

theorem mem_getitem {c : LRUCache V} {k : Nat} {v : V} {c' : LRUCache V}
    (h : c.getitem k = some (v, c')) :
    (k, v) ∈ c.entries ∧ c'.maxsize = c.maxsize ∧
      ∀ p ∈ c'.entries, p = (k, v) ∨ (p ∈ c.entries ∧ p.1 ≠ k) := by
  unfold getitem at h
  cases hf : c.entries.find? (fun p => p.1 == k) with
  | none => rw [hf] at h; exact absurd h (by simp)
  | some q =>
      rw [hf] at h
      have hqk : q.1 = k := by simpa using List.find?_some hf
      have hqmem := List.mem_of_find?_eq_some hf
      simp only [Option.some.injEq, Prod.mk.injEq] at h
      obtain ⟨hv, hc'⟩ := h
      subst hv
      subst hc'
      refine ⟨?_, rfl, ?_⟩
      · have hq : (k, q.2) = q := by
          cases q with
          | mk a b => simp only at hqk; rw [hqk]
        rw [hq]; exact hqmem
      · intro p hp
        simp only [List.mem_cons] at hp
        rcases hp with hp | hp
        · exact Or.inl hp
        · refine Or.inr ⟨List.mem_of_mem_filter hp, ?_⟩
          have := List.of_mem_filter hp
          simpa using this

theorem length_getitem_le {c : LRUCache V} {k : Nat} {v : V} {c' : LRUCache V}
    (h : c.getitem k = some (v, c')) :
    c'.entries.length ≤ c.entries.length := by
  unfold getitem at h
  cases hf : c.entries.find? (fun p => p.1 == k) with
  | none => rw [hf] at h; exact absurd h (by simp)
  | some q =>
      rw [hf] at h
      simp only [Option.some.injEq, Prod.mk.injEq] at h
      obtain ⟨hv, hc'⟩ := h
      have hany : c.entries.any (fun p => p.1 == k) = true := by
        rw [List.any_eq_true]
        exact ⟨q, List.mem_of_find?_eq_some hf, by simpa using List.find?_some hf⟩
      have := length_filter_lt_of_any (l := c.entries) (k := k) hany
      rw [← hc']
      simp only [List.length_cons]
      omega

theorem getitem_isSome_iff (c : LRUCache V) (k : Nat) :
    (c.getitem k).isSome = c.containsKey k := by
  unfold getitem containsKey
  cases hf : c.entries.find? (fun p => p.1 == k) with
  | none =>
      have hall : c.entries.any (fun p => p.1 == k) = false := by
        rw [List.any_eq_false]
        intro x hx
        have := List.find?_eq_none.mp hf x hx
        simpa using this

      simp [hall]
  | some q =>
      have hany : c.entries.any (fun p => p.1 == k) = true := by
        rw [List.any_eq_true]
        exact ⟨q, List.mem_of_find?_eq_some hf, by simpa using List.find?_some hf⟩
      simp [hany]

theorem getitem_eq_none_of_not_contains {c : LRUCache V} {k : Nat}
    (hc : c.containsKey k = false) : c.getitem k = none := by
  have h := getitem_isSome_iff c k
  rw [hc] at h
  exact Option.not_isSome_iff_eq_none.mp (by simp [h])

theorem mem_delitem {c : LRUCache V} {k : Nat} {c' : LRUCache V}
    (h : c.delitem k = some c') :
    c'.maxsize = c.maxsize ∧ ∀ p ∈ c'.entries, p ∈ c.entries ∧ p.1 ≠ k := by
  unfold delitem at h
  by_cases hc : c.containsKey k
  · simp only [hc, if_true, Option.some.injEq] at h
    subst h
    refine ⟨rfl, fun p hp => ⟨List.mem_of_mem_filter hp, ?_⟩⟩
    have := List.of_mem_filter hp
    simpa using this
  · simp [hc] at h

theorem delitem_none {c : LRUCache V} {k : Nat} (h : c.delitem k = none) :
    c.containsKey k = false := by
  cases hc : c.containsKey k with
  | false => rfl
  | true => unfold delitem at h; simp [hc] at h

theorem length_delitem_le {c : LRUCache V} {k : Nat} {c' : LRUCache V}
    (h : c.delitem k = some c') : c'.entries.length ≤ c.entries.length := by
  unfold delitem at h
  by_cases hc : c.containsKey k
  · simp only [hc, if_true, Option.some.injEq] at h
    subst h
    exact List.length_filter_le _ _
  · simp [hc] at h

theorem lookup_setitem_self (c : LRUCache V) (k : Nat) (v : V) :
    (c.setitem k v).lookup k = some v := by
  unfold setitem lookup
  split <;> simp [List.find?_cons]

theorem getitem_of_lookup {c : LRUCache V} {k : Nat} {v : V}
    (h : c.lookup k = some v) :
    c.getitem k =
      some (v, ⟨(k, v) :: c.entries.filter (fun q => q.1 != k), c.maxsize⟩) := by
  unfold lookup at h
  unfold getitem
  cases hf : c.entries.find? (fun p => p.1 == k) with
  | none => rw [hf] at h; simp at h
  | some q =>
      rw [hf] at h
      simp only [Option.map_some', Option.some.injEq] at h
      subst h
      rfl

theorem getitem_setitem_self (c : LRUCache V) (k : Nat) (v : V) :
    ∃ c', (c.setitem k v).getitem k = some (v, c') :=
  ⟨_, getitem_of_lookup (lookup_setitem_self c k v)⟩

theorem containsKey_setitem_self (c : LRUCache V) (k : Nat) (v : V) :
    (c.setitem k v).containsKey k = true := by
  unfold setitem containsKey
  split <;> simp

end LRUCache

section ListLemmas

variable {α : Type}

theorem find?_append_of_some {p : α → Bool} {l₁ l₂ : List α} {v : α}
    (h : l₁.find? p = some v) : (l₁ ++ l₂).find? p = some v := by
  induction l₁ with
  | nil => simp at h
  | cons x xs ih =>
      rw [List.cons_append]
      cases hx : p x with
      | true => rw [List.find?_cons_of_pos _ hx] at h ⊢; exact h
      | false => rw [List.find?_cons_of_neg _ (by simp [hx])] at h ⊢; exact ih h

theorem find?_append_of_none {p : α → Bool} {l₁ : List α} (l₂ : List α)
    (h : l₁.find? p = none) : (l₁ ++ l₂).find? p = l₂.find? p := by
  induction l₁ with
  | nil => simp
  | cons x xs ih =>
      rw [List.cons_append]
      cases hx : p x with
      | true => rw [List.find?_cons_of_pos _ hx] at h; exact absurd h (by simp)
      | false =>
          rw [List.find?_cons_of_neg _ (by simp [hx])] at h
          rw [List.find?_cons_of_neg _ (by simp [hx])]
          exact ih h

theorem find?_eraseP_of_excluded {p q : α → Bool} {l : List α}
    (h : ∀ x ∈ l, q x = true → p x = false) :
    (l.eraseP q).find? p = l.find? p := by
  induction l with
  | nil => simp
  | cons x xs ih =>
      cases hq : q x with
      | true =>
          rw [List.eraseP_cons_of_pos hq]
          have hpx : p x = false := h x (List.mem_cons_self x xs) hq
          rw [List.find?_cons_of_neg _ (by simp [hpx])]
      | false =>
          rw [List.eraseP_cons_of_neg (by simp [hq])]
          cases hp : p x with
          | true =>
              rw [List.find?_cons_of_pos _ hp, List.find?_cons_of_pos _ hp]
          | false =>
              rw [List.find?_cons_of_neg _ (by simp [hp]), List.find?_cons_of_neg _ (by simp [hp])]
              exact ih (fun y hy => h y (List.mem_cons_of_mem x hy))

theorem find?_eq_none_of_all {p : α → Bool} {l : List α}
    (h : ∀ x ∈ l, p x = false) : l.find? p = none := by
  rw [List.find?_eq_none]
  intro x hx
  rw [h x hx]
  simp

end ListLemmas

theorem get_object_ok_uuid {db : List EObj} {pk : Nat} {o : EObj}
    (h : get_object db pk = .ok o) : o.uuid = pk ∧ o ∈ db := by
  unfold get_object at h
  cases hf : db.find? (fun o => o.uuid == pk) with
  | none => rw [hf] at h; exact absurd h (by simp)
  | some q =>
      rw [hf] at h
      simp only [Except.ok.injEq] at h
      subst h
      exact ⟨by simpa using List.find?_some hf, List.mem_of_find?_eq_some hf⟩

theorem apiInv_init : apiInv initApiState := by
  refine ⟨rfl, by simp [initApiState, LRUCache.empty], ?_⟩
  intro p hp
  simp [initApiState, LRUCache.empty] at hp

theorem get_object_ok_iff {db : List EObj} {pk : Nat} {v : EObj} :
    get_object db pk = .ok v ↔ db.find? (fun o => o.uuid == pk) = some v := by
  unfold get_object
  cases hf : db.find? (fun o => o.uuid == pk) <;> simp

theorem get_object_append {db : List EObj} {pk : Nat} {v : EObj} (x : EObj)
    (h : get_object db pk = .ok v) : get_object (db ++ [x]) pk = .ok v := by
  rw [get_object_ok_iff] at h ⊢
  exact find?_append_of_some h

theorem find?_map_of_uuid_preserving (g : EObj → EObj)
    (hg : ∀ r, (g r).uuid = r.uuid) (db : List EObj) (k : Nat) :
    (db.map g).find? (fun o => o.uuid == k)
      = (db.find? (fun o => o.uuid == k)).map g := by
  induction db with
  | nil => rfl
  | cons x xs ih =>
      simp only [List.map_cons, List.find?_cons, hg x]
      cases hx : (x.uuid == k) with
      | true => simp
      | false => simpa using ih

theorem get_object_eraseP_ne {db : List EObj} {pk k : Nat} {v : EObj}
    (hne : k ≠ pk) (h : get_object db k = .ok v) :
    get_object (db.eraseP (fun r => r.uuid == pk)) k = .ok v := by
  rw [get_object_ok_iff] at h ⊢
  have hexu : ∀ x ∈ db, (x.uuid == pk) = true → (x.uuid == k) = false := by
    intro x hx hqx
    have hxu : x.uuid = pk := by simpa using hqx
    have hrw : (x.uuid == k) = (pk == k) := by rw [hxu]
    rw [hrw, beq_eq_false_iff_ne]
    exact fun hcon => hne hcon.symm
  rw [find?_eraseP_of_excluded hexu]
  exact h

theorem find?_eraseP_uuid_self_of_nodup {l : List EObj} {pk : Nat}
    (hnd : (l.map EObj.uuid).Nodup)
    (hex : (l.find? (fun o => o.uuid == pk)).isSome) :
    (l.eraseP (fun o => o.uuid == pk)).find? (fun o => o.uuid == pk) = none := by
  induction l with
  | nil => simp at hex
  | cons x xs ih =>
      simp only [List.map_cons, List.nodup_cons] at hnd
      obtain ⟨hx_not, hnd'⟩ := hnd
      by_cases hx : x.uuid = pk
      · rw [List.eraseP_cons_of_pos (by simp [hx])]
        apply find?_eq_none_of_all
        intro y hy
        rw [beq_eq_false_iff_ne]
        intro hcon
        exact hx_not (by rw [hx, ← hcon]; exact List.mem_map.mpr ⟨y, hy, rfl⟩)
      · rw [List.eraseP_cons_of_neg (by simp [hx]),
          List.find?_cons_of_neg _ (by simp [hx])]
        apply ih hnd'
        rw [List.find?_cons_of_neg _ (by simp [hx])] at hex
        exact hex

theorem apiInv_get (s : ApiState) (pk : Nat) (h : apiInv s) :
    apiInv (BaseAPI.get s pk).2 := by
  obtain ⟨hmax, hlen, hcoh⟩ := h
  cases hg : s.cache.getitem pk with
  | some vc =>
      obtain ⟨v, c'⟩ := vc
      obtain ⟨hmem, hmax', hsub⟩ := LRUCache.mem_getitem hg
      have hstate : (BaseAPI.get s pk).2 = ⟨s.db, c'⟩ := by
        simp [BaseAPI.get, hg]
      rw [hstate]
      refine ⟨hmax'.trans hmax, (LRUCache.length_getitem_le hg).trans hlen, ?_⟩
      intro p hp
      rcases hsub p hp with rfl | ⟨hpe, -⟩
      · exact hcoh (pk, v) hmem
      · exact hcoh p hpe
  | none =>
      cases ho : get_object s.db pk with
      | error e =>
          have hstate : (BaseAPI.get s pk).2 = s := by
            simp [BaseAPI.get, hg, ho]
          rw [hstate]; exact ⟨hmax, hlen, hcoh⟩
      | ok o =>
          have hstate : (BaseAPI.get s pk).2 = ⟨s.db, s.cache.setitem pk o⟩ := by
            simp [BaseAPI.get, hg, ho]
          rw [hstate]
          obtain ⟨houuid, -⟩ := get_object_ok_uuid ho
          refine ⟨(LRUCache.maxsize_setitem _ _ _).trans hmax, ?_, ?_⟩
          · have hb := LRUCache.length_setitem_le s.cache pk o
              (by rw [hmax]; exact hlen) (by rw [hmax]; omega)
            rw [hmax] at hb; exact hb
          · intro p hp
            rcases LRUCache.mem_setitem hp with rfl | ⟨hpe, -⟩
            · exact ⟨houuid.symm, ho⟩
            · exact hcoh p hpe

theorem apiInv_create (s : ApiState) (data : EObj) (h : apiInv s) :
    apiInv (BaseAPI.create s data).2 := by
  obtain ⟨hmax, hlen, hcoh⟩ := h
  cases hany : s.db.any (fun o => o.uuid == data.uuid) with
  | true =>
      have hstate : (BaseAPI.create s data).2 = s := by
        simp [BaseAPI.create, create_object, hany]
      rw [hstate]; exact ⟨hmax, hlen, hcoh⟩
  | false =>
      have hstate : (BaseAPI.create s data).2
          = ⟨s.db ++ [data], s.cache.setitem data.uuid data⟩ := by
        simp [BaseAPI.create, create_object, hany]
      rw [hstate]
      refine ⟨(LRUCache.maxsize_setitem _ _ _).trans hmax, ?_, ?_⟩
      · have hb := LRUCache.length_setitem_le s.cache data.uuid data
          (by rw [hmax]; exact hlen) (by rw [hmax]; omega)
        rw [hmax] at hb; exact hb
      · intro p hp
        rcases LRUCache.mem_setitem hp with rfl | ⟨hpe, -⟩
        · refine ⟨rfl, ?_⟩
          rw [get_object_ok_iff]
          have hnone : s.db.find? (fun o => o.uuid == data.uuid) = none := by
            apply find?_eq_none_of_all
            intro x hx
            have := List.any_eq_false.mp hany x hx
            simpa using this
          rw [find?_append_of_none _ hnone, List.find?_cons_of_pos _ (by simp)]
        · obtain ⟨hk, hget⟩ := hcoh p hpe
          exact ⟨hk, get_object_append data hget⟩

theorem apiInv_update (s : ApiState) (obj : EObj) (payload : Nat) (h : apiInv s) :
    apiInv (BaseAPI.update s obj payload).2 := by
  obtain ⟨hmax, hlen, hcoh⟩ := h
  cases hf : s.db.find? (fun o => o.uuid == obj.uuid) with
  | none =>
      have hstate : (BaseAPI.update s obj payload).2 = s := by
        simp [BaseAPI.update, update_object, hf]
      rw [hstate]; exact ⟨hmax, hlen, hcoh⟩
  | some o =>
      have ho_uuid : o.uuid = obj.uuid := by simpa using List.find?_some hf
      have hg : ∀ r, (setPayload obj.uuid payload r).uuid = r.uuid := by
        intro r; unfold setPayload; split <;> rfl
      have hstate : (BaseAPI.update s obj payload).2
          = ⟨s.db.map (setPayload obj.uuid payload),
             s.cache.setitem obj.uuid { o with payload := payload }⟩ := by
        simp [BaseAPI.update, update_object, hf]
      rw [hstate]
      refine ⟨(LRUCache.maxsize_setitem _ _ _).trans hmax, ?_, ?_⟩
      · have hb := LRUCache.length_setitem_le s.cache obj.uuid
          { o with payload := payload } (by rw [hmax]; exact hlen)
          (by rw [hmax]; omega)
        rw [hmax] at hb; exact hb
      · intro p hp
        rcases LRUCache.mem_setitem hp with rfl | ⟨hpe, hne⟩
        · refine ⟨ho_uuid.symm, ?_⟩
          rw [get_object_ok_iff, find?_map_of_uuid_preserving _ hg, hf]
          simp [setPayload, ho_uuid]
        · obtain ⟨hk, hget⟩ := hcoh p hpe
          refine ⟨hk, ?_⟩
          rw [get_object_ok_iff] at hget
          rw [get_object_ok_iff, find?_map_of_uuid_preserving _ hg, hget]
          have : setPayload obj.uuid payload p.2 = p.2 := by
            unfold setPayload
            have : (p.2.uuid == obj.uuid) = false := by
              rw [beq_eq_false_iff_ne, ← hk]
              exact hne
            simp [this]
          rw [Option.map_some', this]

theorem apiInv_delete (s : ApiState) (obj : EObj) (h : apiInv s) :
    apiInv (BaseAPI.delete s obj).2 := by
  obtain ⟨hmax, hlen, hcoh⟩ := h
  cases hf : s.db.find? (fun o => o.uuid == obj.uuid) with
  | none =>
      have hstate : (BaseAPI.delete s obj).2 = s := by
        simp [BaseAPI.delete, delete_object, hf]
      rw [hstate]; exact ⟨hmax, hlen, hcoh⟩
  | some o =>
      cases hd : s.cache.delitem obj.uuid with
      | some c' =>
          have hstate : (BaseAPI.delete s obj).2
              = ⟨s.db.eraseP (fun r => r.uuid == obj.uuid), c'⟩ := by
            simp [BaseAPI.delete, delete_object, hf, hd]
          rw [hstate]
          obtain ⟨hmax', hsub⟩ := LRUCache.mem_delitem hd
          refine ⟨hmax'.trans hmax,
            (LRUCache.length_delitem_le hd).trans hlen, ?_⟩
          intro p hp
          obtain ⟨hpe, hne⟩ := hsub p hp
          obtain ⟨hk, hget⟩ := hcoh p hpe
          exact ⟨hk, get_object_eraseP_ne hne hget⟩
      | none =>
          have hstate : (BaseAPI.delete s obj).2
              = ⟨s.db.eraseP (fun r => r.uuid == obj.uuid), s.cache⟩ := by
            simp [BaseAPI.delete, delete_object, hf, hd]
          rw [hstate]
          have hckey := LRUCache.delitem_none hd
          refine ⟨hmax, hlen, ?_⟩
          intro p hp
          obtain ⟨hk, hget⟩ := hcoh p hp
          have hne := LRUCache.not_mem_key_of_not_containsKey hckey p hp
          exact ⟨hk, get_object_eraseP_ne hne hget⟩

theorem apiInv_step (s : ApiState) (op : ApiOp) (h : apiInv s) :
    apiInv (stepOp s op) := by
  cases op with
  | get pk => exact apiInv_get s pk h
  | create d => exact apiInv_create s d h
  | update o p => exact apiInv_update s o p h
  | delete o => exact apiInv_delete s o h

theorem apiInv_runOps (ops : List ApiOp) : apiInv (runOps initApiState ops) := by
  suffices h : ∀ s, apiInv s → apiInv (runOps s ops) from h _ apiInv_init
  induction ops with
  | nil => intro s hs; simpa [runOps] using hs
  | cons op rest ih =>
      intro s hs
      have hstep : runOps s (op :: rest) = runOps (stepOp s op) rest := by
        simp [runOps]
      rw [hstep]
      exact ih _ (apiInv_step s op hs)

theorem cacheKeyed_setitem {c : LRUCache EObj} {k : Nat} {v : EObj}
    (hk : k = v.uuid) (h : cacheKeyed c) : cacheKeyed (c.setitem k v) := by
  obtain ⟨hmax, hlen, hkey⟩ := h
  refine ⟨(LRUCache.maxsize_setitem _ _ _).trans hmax, ?_, ?_⟩
  · have hb := LRUCache.length_setitem_le c k v (by rw [hmax]; exact hlen)
      (by rw [hmax]; omega)
    rw [hmax] at hb; exact hb
  · intro p hp
    rcases LRUCache.mem_setitem hp with rfl | ⟨hpe, -⟩
    · exact hk
    · exact hkey p hpe

theorem cacheKeyed_step (s : ApiState) (op : ApiOpFull)
    (h : cacheKeyed s.cache) : cacheKeyed (stepOpFull s op).cache := by
  cases op with
  | updateCache obj => exact cacheKeyed_setitem rfl h
  | base bop =>
    cases bop with
    | get pk =>
        cases hg : s.cache.getitem pk with
        | some vc =>
            obtain ⟨v, c'⟩ := vc
            obtain ⟨hmem, hmax', hsub⟩ := LRUCache.mem_getitem hg
            have hstate : (stepOpFull s (.base (.get pk))).cache = c' := by
              simp [stepOpFull, stepOp, BaseAPI.get, hg]
            rw [hstate]
            obtain ⟨hmax, hlen, hkey⟩ := h
            refine ⟨hmax'.trans hmax,
              (LRUCache.length_getitem_le hg).trans hlen, ?_⟩
            intro p hp
            rcases hsub p hp with rfl | ⟨hpe, -⟩
            · exact hkey (pk, v) hmem
            · exact hkey p hpe
        | none =>
            cases ho : get_object s.db pk with
            | error e =>
                have hstate : (stepOpFull s (.base (.get pk))).cache
                    = s.cache := by
                  simp [stepOpFull, stepOp, BaseAPI.get, hg, ho]
                rw [hstate]; exact h
            | ok o =>
                have hstate : (stepOpFull s (.base (.get pk))).cache
                    = s.cache.setitem pk o := by
                  simp [stepOpFull, stepOp, BaseAPI.get, hg, ho]
                rw [hstate]
                obtain ⟨houuid, -⟩ := get_object_ok_uuid ho
                exact cacheKeyed_setitem houuid.symm h
    | create d =>
        cases hany : s.db.any (fun o => o.uuid == d.uuid) with
        | true =>
            have hstate : (stepOpFull s (.base (.create d))).cache
                = s.cache := by
              simp [stepOpFull, stepOp, BaseAPI.create, create_object, hany]
            rw [hstate]; exact h
        | false =>
            have hstate : (stepOpFull s (.base (.create d))).cache
                = s.cache.setitem d.uuid d := by
              simp [stepOpFull, stepOp, BaseAPI.create, create_object, hany]
            rw [hstate]
            exact cacheKeyed_setitem rfl h
    | update obj payload =>
        cases hf : s.db.find? (fun o => o.uuid == obj.uuid) with
        | none =>
            have hstate : (stepOpFull s (.base (.update obj payload))).cache
                = s.cache := by
              simp [stepOpFull, stepOp, BaseAPI.update, update_object, hf]
            rw [hstate]; exact h
        | some o =>
            have ho_uuid : o.uuid = obj.uuid := by
              simpa using List.find?_some hf
            have hstate : (stepOpFull s (.base (.update obj payload))).cache
                = s.cache.setitem obj.uuid { o with payload := payload } := by
              simp [stepOpFull, stepOp, BaseAPI.update, update_object, hf]
            rw [hstate]
            exact cacheKeyed_setitem ho_uuid.symm h
    | delete obj =>
        cases hf : s.db.find? (fun o => o.uuid == obj.uuid) with
        | none =>
            have hstate : (stepOpFull s (.base (.delete obj))).cache
                = s.cache := by
              simp [stepOpFull, stepOp, BaseAPI.delete, delete_object, hf]
            rw [hstate]; exact h
        | some o =>
            cases hd : s.cache.delitem obj.uuid with
            | some c' =>
                obtain ⟨hmax', hsub⟩ := LRUCache.mem_delitem hd
                have hstate : (stepOpFull s (.base (.delete obj))).cache
                    = c' := by
                  simp [stepOpFull, stepOp, BaseAPI.delete, delete_object,
                    hf, hd]
                rw [hstate]
                obtain ⟨hmax, hlen, hkey⟩ := h
                refine ⟨hmax'.trans hmax,
                  (LRUCache.length_delitem_le hd).trans hlen, ?_⟩
                intro p hp
                obtain ⟨hpe, -⟩ := hsub p hp
                exact hkey p hpe
            | none =>
                have hstate : (stepOpFull s (.base (.delete obj))).cache
                    = s.cache := by
                  simp [stepOpFull, stepOp, BaseAPI.delete, delete_object,
                    hf, hd]
                rw [hstate]; exact h

theorem cacheKeyed_runOpsFull (ops : List ApiOpFull) :
    cacheKeyed (runOpsFull initApiState ops).cache := by
  suffices h : ∀ s, cacheKeyed s.cache → cacheKeyed (runOpsFull s ops).cache by
    refine h _ ?_
    obtain ⟨hmax, hlen, hcoh⟩ := apiInv_init
    exact ⟨hmax, hlen, fun p hp => (hcoh p hp).1⟩
  induction ops with
  | nil => intro s hs; simpa [runOpsFull] using hs
  | cons op rest ih =>
      intro s hs
      have hstep : runOpsFull s (op :: rest)
          = runOpsFull (stepOpFull s op) rest := by
        simp [runOpsFull]
      rw [hstep]
      exact ih _ (cacheKeyed_step s op hs)

/-- Claim C3: for every `BaseAPI` instance and every sequence of its
operations — get, create, update, delete, and the cache-updating domain
operations, which write the cache through `_update_cache` — the cache
holds at most 1000 entries, each entry is keyed by the object's UUID, and
an insertion into a full cache evicts the least-recently-used (i.e. last,
in MRU-first order) entry. -/
theorem claim_C3_cache_bounded_lru_keyed_by_uuid (ops : List ApiOpFull) :
    (runOpsFull initApiState ops).cache.entries.length ≤ 1000 ∧
    (∀ p ∈ (runOpsFull initApiState ops).cache.entries, p.1 = p.2.uuid) ∧
    (∀ k v, (runOpsFull initApiState ops).cache.containsKey k = false →
      (runOpsFull initApiState ops).cache.entries.length = 1000 →
      ((runOpsFull initApiState ops).cache.setitem k v).entries
        = (k, v) :: (runOpsFull initApiState ops).cache.entries.dropLast) := by
  obtain ⟨hmax, hlen, hkey⟩ := cacheKeyed_runOpsFull ops
  refine ⟨hlen, hkey, fun k v hk hfull => ?_⟩
  exact LRUCache.setitem_entries_full _ k v hk (le_of_eq (hmax.trans hfull.symm))

/-- Application of C3 at a concrete operation sequence containing a
cache-updating domain operation. -/
theorem claim_C3_witness :
    (runOpsFull initApiState [.base (.create ⟨1, 2⟩), .base (.get 1),
        .updateCache ⟨1, 7⟩]).cache.entries.length ≤ 1000 ∧
    (∀ p ∈ (runOpsFull initApiState [.base (.create ⟨1, 2⟩), .base (.get 1),
        .updateCache ⟨1, 7⟩]).cache.entries, p.1 = p.2.uuid) :=
  ⟨(claim_C3_cache_bounded_lru_keyed_by_uuid [.base (.create ⟨1, 2⟩),
      .base (.get 1), .updateCache ⟨1, 7⟩]).1,
   (claim_C3_cache_bounded_lru_keyed_by_uuid [.base (.create ⟨1, 2⟩),
      .base (.get 1), .updateCache ⟨1, 7⟩]).2.1⟩

/-- Claim C4: provided the table has only been touched through the same
`BaseAPI` instance (i.e. on every reachable state), `BaseAPI.get` returns
exactly what an uncached fetch-and-validate against the current database
returns, whether or not the key is currently cached. -/
theorem claim_C4_get_cached_eq_uncached (ops : List ApiOp) (pk : Nat) :
    (BaseAPI.get (runOps initApiState ops) pk).1
      = get_object (runOps initApiState ops).db pk := by
  obtain ⟨-, -, hcoh⟩ := apiInv_runOps ops
  cases hg : (runOps initApiState ops).cache.getitem pk with
  | some vc =>
      obtain ⟨v, c'⟩ := vc
      obtain ⟨hmem, -, -⟩ := LRUCache.mem_getitem hg
      have hv := (hcoh (pk, v) hmem).2
      simp [BaseAPI.get, hg, hv]
  | none =>
      cases ho : get_object (runOps initApiState ops).db pk with
      | ok o => simp [BaseAPI.get, hg, ho]
      | error e => simp [BaseAPI.get, hg, ho]

/-- Application of C4 at a concrete state: a cached and an uncached get of
the same key agree. -/
theorem claim_C4_witness :
    (BaseAPI.get (runOps initApiState [ApiOp.create ⟨1, 2⟩]) 1).1
      = get_object (runOps initApiState [ApiOp.create ⟨1, 2⟩]).db 1 :=
  claim_C4_get_cached_eq_uncached [ApiOp.create ⟨1, 2⟩] 1

/-- Claim C8: on a cache miss, `BaseAPI.delete` first removes the matching
database row and then raises `KeyError` from `del self._cache[pk]`: the
call fails although the row is already gone (`get` by that UUID afterwards
raises `NotFoundError`). -/
theorem claim_C8_delete_cache_miss_keyerror (s : ApiState) (obj o : EObj)
    (hnd : (s.db.map EObj.uuid).Nodup)
    (hmiss : s.cache.containsKey obj.uuid = false)
    (hrow : get_object s.db obj.uuid = .ok o) :
    (BaseAPI.delete s obj).1 = .error .keyError ∧
    (BaseAPI.delete s obj).2.cache = s.cache ∧
    (BaseAPI.delete s obj).2.db = s.db.eraseP (fun r => r.uuid == obj.uuid) ∧
    get_object (BaseAPI.delete s obj).2.db obj.uuid = .error .notFound := by
  rw [get_object_ok_iff] at hrow
  have hdel : s.cache.delitem obj.uuid = none := by
    unfold LRUCache.delitem
    simp [hmiss]
  have hstate : BaseAPI.delete s obj
      = (.error .keyError, ⟨s.db.eraseP (fun r => r.uuid == obj.uuid), s.cache⟩) := by
    simp [BaseAPI.delete, delete_object, hrow, hdel]
  refine ⟨by rw [hstate], by rw [hstate], by rw [hstate], ?_⟩
  rw [hstate]
  unfold get_object
  rw [find?_eraseP_uuid_self_of_nodup hnd (by rw [hrow]; rfl)]

/-- Application of C8: deleting a stored object through a fresh (empty-cache)
instance removes the row and still raises `KeyError`. -/
theorem claim_C8_witness :
    (BaseAPI.delete ⟨[⟨5, 7⟩], LRUCache.empty 1000⟩ ⟨5, 7⟩).1
        = .error .keyError ∧
    (BaseAPI.delete ⟨[⟨5, 7⟩], LRUCache.empty 1000⟩ ⟨5, 7⟩).2.cache
        = (⟨[⟨5, 7⟩], LRUCache.empty 1000⟩ : ApiState).cache ∧
    (BaseAPI.delete ⟨[⟨5, 7⟩], LRUCache.empty 1000⟩ ⟨5, 7⟩).2.db
        = ([⟨5, 7⟩] : List EObj).eraseP
            (fun r => r.uuid == (⟨5, 7⟩ : EObj).uuid) ∧
    get_object (BaseAPI.delete ⟨[⟨5, 7⟩], LRUCache.empty 1000⟩ ⟨5, 7⟩).2.db
        (⟨5, 7⟩ : EObj).uuid = .error .notFound :=
  claim_C8_delete_cache_miss_keyerror ⟨[⟨5, 7⟩], LRUCache.empty 1000⟩ ⟨5, 7⟩ ⟨5, 7⟩
    (by decide) rfl rfl

/-- Claim C10: `BaseAPI.get_many` returns a pair `(objects, count)` where
`count` is the total number of rows matching the filters irrespective of
limit and offset, and the number of returned objects never exceeds a
non-negative `limit`. -/
theorem claim_C10_get_many_count_and_limit (s : ApiState)
    (filters : List (EObj → Bool)) (limit offset : Option Int)
    (sortKey : Option (EObj → Nat)) :
    (BaseAPI.get_many s filters limit offset sortKey).2
      = (BaseAPI.get_many s filters none none sortKey).2 ∧
    (BaseAPI.get_many s filters limit offset sortKey).2
      = (s.db.filter (fun o => filters.all (fun f => f o))).length ∧
    ∀ n : Int, limit = some n → 0 ≤ n →
      (BaseAPI.get_many s filters limit offset sortKey).1.length ≤ n.toNat := by
  refine ⟨rfl, rfl, ?_⟩
  intro n hn hnn
  subst hn
  show (BaseAPI.applyLimit (some n) _).length ≤ n.toNat
  simp only [BaseAPI.applyLimit]
  rw [if_pos hnn, List.length_take]
  exact Nat.min_le_left _ _

theorem claim_C10_witness :
    (BaseAPI.get_many ⟨[⟨1, 0⟩, ⟨2, 0⟩, ⟨3, 0⟩], LRUCache.empty 1000⟩ []
        (some 2) none none).2
      = (BaseAPI.get_many ⟨[⟨1, 0⟩, ⟨2, 0⟩, ⟨3, 0⟩], LRUCache.empty 1000⟩ []
        none none none).2 ∧
    (BaseAPI.get_many ⟨[⟨1, 0⟩, ⟨2, 0⟩, ⟨3, 0⟩], LRUCache.empty 1000⟩ []
        (some 2) none none).1.length ≤ (2 : Int).toNat :=
  ⟨(claim_C10_get_many_count_and_limit
      ⟨[⟨1, 0⟩, ⟨2, 0⟩, ⟨3, 0⟩], LRUCache.empty 1000⟩ [] (some 2) none none).1,
   (claim_C10_get_many_count_and_limit
      ⟨[⟨1, 0⟩, ⟨2, 0⟩, ⟨3, 0⟩], LRUCache.empty 1000⟩ [] (some 2) none none).2.2
      2 rfl (by decide)⟩

/-- Claim C2 (the code contradicts it): importing a fresh soundevent
evaluation set that carries an evaluation tag and an annotated clip creates
the internal evaluation set from uuid, created_on, name and description
ONLY — the created object has no tags, and no tag rows, clip rows or tag
table entries are written, because `from_soundevent` never invokes
`_update_from_soundevent`. -/
theorem claim_C2_from_soundevent_drops_tags_and_clips :
    (esFromSoundevent esInit
        ⟨1, 2, "set", "desc", [⟨"species", "myotis"⟩], [⟨9⟩]⟩).1
      = .ok ⟨0, 1, 2, "set", "desc", []⟩ ∧
    (esFromSoundevent esInit
        ⟨1, 2, "set", "desc", [⟨"species", "myotis"⟩], [⟨9⟩]⟩).2.esTagRows = [] ∧
    (esFromSoundevent esInit
        ⟨1, 2, "set", "desc", [⟨"species", "myotis"⟩], [⟨9⟩]⟩).2.esAnnRows = [] ∧
    (esFromSoundevent esInit
        ⟨1, 2, "set", "desc", [⟨"species", "myotis"⟩], [⟨9⟩]⟩).2.tagsDb = [] ∧
    (esFromSoundevent esInit
        ⟨1, 2, "set", "desc", [⟨"species", "myotis"⟩], [⟨9⟩]⟩).2.clipAnns = [] :=
  ⟨rfl, rfl, rfl, rfl, rfl⟩

theorem esFromSoundevent_fresh (s : ESState) (d : SEEvaluationSet)
    (hcache : s.cache.containsKey d.uuid = false)
    (hdb : s.evalsets.find? (fun r => r.uuid == d.uuid) = none) :
    esFromSoundevent s d =
      (.ok ⟨s.nextId, d.uuid, d.created_on, d.name, d.description,
            esTagsOf s.esTagRows s.tagsDb s.nextId⟩,
       { evalsets := s.evalsets
           ++ [⟨s.nextId, d.uuid, d.created_on, d.name, d.description⟩],
         tagsDb := s.tagsDb,
         esTagRows := s.esTagRows,
         clipAnns := s.clipAnns,
         esAnnRows := s.esAnnRows,
         cache := (s.cache.setitem d.uuid
             ⟨s.nextId, d.uuid, d.created_on, d.name, d.description,
              esTagsOf s.esTagRows s.tagsDb s.nextId⟩).setitem d.uuid
             ⟨s.nextId, d.uuid, d.created_on, d.name, d.description,
              esTagsOf s.esTagRows s.tagsDb s.nextId⟩,
         nextId := s.nextId + 1 }) := by
  have hget := LRUCache.getitem_eq_none_of_not_contains hcache
  have hany : s.evalsets.any (fun r => r.uuid == d.uuid) = false := by
    rw [List.any_eq_false]
    intro x hx
    exact List.find?_eq_none.mp hdb x hx
  simp [esFromSoundevent, esGet, hget, hdb, esCreate, hany, esUpdateCache,
    esValidate]

/-- Claim C5, amended: for every soundevent evaluation set `d` whose UUID is
not yet stored (no cache entry and no database row for `d.uuid`), the
object returned by `from_soundevent` is mapped back by `to_soundevent` to a
soundevent evaluation set with the same uuid, created_on, name and
description. -/
theorem claim_C5_roundtrip_scalars_fresh (s : ESState) (d : SEEvaluationSet)
    (hcache : s.cache.containsKey d.uuid = false)
    (hdb : s.evalsets.find? (fun r => r.uuid == d.uuid) = none) :
    (esRoundtrip s d).map SEEvaluationSet.uuid = some d.uuid ∧
    (esRoundtrip s d).map SEEvaluationSet.created_on = some d.created_on ∧
    (esRoundtrip s d).map SEEvaluationSet.name = some d.name ∧
    (esRoundtrip s d).map SEEvaluationSet.description = some d.description := by
  unfold esRoundtrip
  rw [esFromSoundevent_fresh s d hcache hdb]
  exact ⟨rfl, rfl, rfl, rfl⟩

/-- Application of the amended C5 at a concrete fresh import. -/
theorem claim_C5_witness :
    (esRoundtrip esInit ⟨1, 2, "n", "de", [], []⟩).map SEEvaluationSet.uuid
        = some 1 ∧
    (esRoundtrip esInit ⟨1, 2, "n", "de", [], []⟩).map SEEvaluationSet.created_on
        = some 2 ∧
    (esRoundtrip esInit ⟨1, 2, "n", "de", [], []⟩).map SEEvaluationSet.name
        = some "n" ∧
    (esRoundtrip esInit ⟨1, 2, "n", "de", [], []⟩).map SEEvaluationSet.description
        = some "de" :=
  claim_C5_roundtrip_scalars_fresh esInit ⟨1, 2, "n", "de", [], []⟩ rfl rfl

/-- Counterexample to claim C5 as stated: with UUID 5 already stored under
the name "old", importing `d` with UUID 5 and name "new" returns the stored
object, and the round trip yields name "old" ≠ "new" = `d.name`. -/
theorem claim_C5_counterexample :
    (esFromSoundevent
        ⟨[⟨0, 5, 3, "old", "d"⟩], [], [], [], [], LRUCache.empty 1000, 1⟩
        ⟨5, 3, "new", "d", [], []⟩).1 = .ok ⟨0, 5, 3, "old", "d", []⟩ ∧
    (esRoundtrip
        ⟨[⟨0, 5, 3, "old", "d"⟩], [], [], [], [], LRUCache.empty 1000, 1⟩
        ⟨5, 3, "new", "d", [], []⟩).map SEEvaluationSet.name
      ≠ some (⟨5, 3, "new", "d", [], []⟩ : SEEvaluationSet).name :=
  ⟨rfl, by decide⟩

/-- Claim C9: `EvaluationSetAPI.add_tag` raises `ValueError` whenever the tag
is already in `obj.tags` and `remove_tag` raises `ValueError` whenever it is
absent; on success each returns a copy of `obj` with the tag list updated
(appended, resp. filtered by tag id) and refreshes the cache entry for
`obj.uuid`. -/
theorem claim_C9_add_remove_tag_valueerror_and_cache (s : ESState)
    (obj : EvaluationSetSchema) (tag : Tag) :
    (tag ∈ obj.tags → esAddTag s obj tag = (.error .valueError, s)) ∧
    (tag ∉ obj.tags → esRemoveTag s obj tag = (.error .valueError, s)) ∧
    (tag ∉ obj.tags →
      s.esTagRows.any (fun p => p == (obj.id, tag.id)) = false →
      (esAddTag s obj tag).1 = .ok { obj with tags := obj.tags ++ [tag] } ∧
      (esAddTag s obj tag).2.cache.lookup obj.uuid
        = some { obj with tags := obj.tags ++ [tag] }) ∧
    (tag ∈ obj.tags →
      (s.esTagRows.find? (fun p => p == (obj.id, tag.id))).isSome →
      (esRemoveTag s obj tag).1
        = .ok { obj with tags := obj.tags.filter (fun t => t.id != tag.id) } ∧
      (esRemoveTag s obj tag).2.cache.lookup obj.uuid
        = some { obj with tags := obj.tags.filter (fun t => t.id != tag.id) }) := by
  refine ⟨?_, ?_, ?_, ?_⟩
  · intro hmem
    simp [esAddTag, hmem]
  · intro hmem
    simp [esRemoveTag, hmem]
  · intro hmem hrow
    constructor
    · simp [esAddTag, hmem, hrow]
    · simp [esAddTag, hmem, hrow, LRUCache.lookup_setitem_self]
  · intro hmem hrow
    cases hf : s.esTagRows.find? (fun p => p == (obj.id, tag.id)) with
    | none => rw [hf] at hrow; simp at hrow
    | some r =>
        constructor
        · simp [esRemoveTag, hmem, hf]
        · simp [esRemoveTag, hmem, hf, LRUCache.lookup_setitem_self]

/-- Application of C9 at concrete states: the `ValueError` cases and both
success cases. -/
theorem claim_C9_witness :
    esAddTag ⟨[], [], [(0, 1)], [], [], LRUCache.empty 1000, 0⟩
        ⟨0, 7, 1, "e", "d", [⟨1, "k", "v"⟩]⟩ ⟨1, "k", "v"⟩
      = (.error .valueError,
         ⟨[], [], [(0, 1)], [], [], LRUCache.empty 1000, 0⟩) ∧
    esRemoveTag ⟨[], [], [(0, 1)], [], [], LRUCache.empty 1000, 0⟩
        ⟨0, 7, 1, "e", "d", [⟨1, "k", "v"⟩]⟩ ⟨2, "a", "b"⟩
      = (.error .valueError,
         ⟨[], [], [(0, 1)], [], [], LRUCache.empty 1000, 0⟩) ∧
    (esAddTag ⟨[], [], [(0, 1)], [], [], LRUCache.empty 1000, 0⟩
        ⟨0, 7, 1, "e", "d", [⟨1, "k", "v"⟩]⟩ ⟨2, "a", "b"⟩).1
      = .ok { (⟨0, 7, 1, "e", "d", [⟨1, "k", "v"⟩]⟩ : EvaluationSetSchema) with
              tags := [⟨1, "k", "v"⟩] ++ [⟨2, "a", "b"⟩] } ∧
    (esRemoveTag ⟨[], [], [(0, 1)], [], [], LRUCache.empty 1000, 0⟩
        ⟨0, 7, 1, "e", "d", [⟨1, "k", "v"⟩]⟩ ⟨1, "k", "v"⟩).1
      = .ok { (⟨0, 7, 1, "e", "d", [⟨1, "k", "v"⟩]⟩ : EvaluationSetSchema) with
              tags := [(⟨1, "k", "v"⟩ : Tag)].filter
                (fun t => t.id != (⟨1, "k", "v"⟩ : Tag).id) } :=
  ⟨(claim_C9_add_remove_tag_valueerror_and_cache
      ⟨[], [], [(0, 1)], [], [], LRUCache.empty 1000, 0⟩
      ⟨0, 7, 1, "e", "d", [⟨1, "k", "v"⟩]⟩ ⟨1, "k", "v"⟩).1 (by decide),
   (claim_C9_add_remove_tag_valueerror_and_cache
      ⟨[], [], [(0, 1)], [], [], LRUCache.empty 1000, 0⟩
      ⟨0, 7, 1, "e", "d", [⟨1, "k", "v"⟩]⟩ ⟨2, "a", "b"⟩).2.1 (by decide),
   ((claim_C9_add_remove_tag_valueerror_and_cache
      ⟨[], [], [(0, 1)], [], [], LRUCache.empty 1000, 0⟩
      ⟨0, 7, 1, "e", "d", [⟨1, "k", "v"⟩]⟩ ⟨2, "a", "b"⟩).2.2.1 (by decide)
      (by decide)).1,
   ((claim_C9_add_remove_tag_valueerror_and_cache
      ⟨[], [], [(0, 1)], [], [], LRUCache.empty 1000, 0⟩
      ⟨0, 7, 1, "e", "d", [⟨1, "k", "v"⟩]⟩ ⟨1, "k", "v"⟩).2.2.2 (by decide)
      (by decide)).1⟩

theorem urAdd_false_of_mem {s : URState} {run : UserRunRow} {cp : ClipPredRow}
    (h : (run.id, cp.id) ∈ s.urPredRows) :
    urAddClipPrediction s run cp false = (.ok run, s) := by
  have hany : s.urPredRows.any (fun p => p == (run.id, cp.id)) = true := by
    rw [List.any_eq_true]
    exact ⟨_, h, by simp⟩
  simp [urAddClipPrediction, hany]

theorem urAdd_false_of_not_mem {s : URState} {run : UserRunRow}
    {cp : ClipPredRow} (h : (run.id, cp.id) ∉ s.urPredRows) :
    urAddClipPrediction s run cp false
      = (.ok run, { s with urPredRows := s.urPredRows ++ [(run.id, cp.id)] }) := by
  have hany : s.urPredRows.any (fun p => p == (run.id, cp.id)) = false := by
    rw [List.any_eq_false]
    intro q hq
    simp only [beq_iff_eq]
    exact fun hcon => h (hcon ▸ hq)
  simp [urAddClipPrediction, hany]

theorem clipPredFromSoundevent_spec (s : URState) (cp : SEClipPrediction) :
    (clipPredFromSoundevent s cp).2.clipPreds.find?
        (fun r => r.uuid == cp.uuid) = some (clipPredFromSoundevent s cp).1 ∧
    (∀ u q, s.clipPreds.find? (fun r => r.uuid == u) = some q →
      (clipPredFromSoundevent s cp).2.clipPreds.find?
          (fun r => r.uuid == u) = some q) ∧
    (clipPredFromSoundevent s cp).2.userRuns = s.userRuns ∧
    (clipPredFromSoundevent s cp).2.urPredRows = s.urPredRows ∧
    (clipPredFromSoundevent s cp).2.cache = s.cache := by
  unfold clipPredFromSoundevent
  cases hf : s.clipPreds.find? (fun r => r.uuid == cp.uuid) with
  | some r => exact ⟨hf, fun u q h => h, rfl, rfl, rfl⟩
  | none =>
      refine ⟨?_, ?_, rfl, rfl, rfl⟩
      · simp only
        rw [find?_append_of_none _ hf, List.find?_cons_of_pos _ (by simp)]
      · intro u q h
        exact find?_append_of_some h

theorem urLoop_spec (cps : List SEClipPrediction) :
    ∀ (s : URState) (run : UserRunRow),
      (urUpdateLoop s run cps).1 = run ∧
      (∀ cp ∈ cps, ∃ p,
        (urUpdateLoop s run cps).2.clipPreds.find?
            (fun r => r.uuid == cp.uuid) = some p ∧
        (run.id, p.id) ∈ (urUpdateLoop s run cps).2.urPredRows) ∧
      (∀ u q, s.clipPreds.find? (fun r => r.uuid == u) = some q →
        (urUpdateLoop s run cps).2.clipPreds.find?
            (fun r => r.uuid == u) = some q) ∧
      (∀ q ∈ s.urPredRows, q ∈ (urUpdateLoop s run cps).2.urPredRows) ∧
      (urUpdateLoop s run cps).2.userRuns = s.userRuns ∧
      (urUpdateLoop s run cps).2.cache = s.cache := by
  induction cps with
  | nil =>
      intro s run
      exact ⟨rfl, by simp, fun u q h => h, fun q hq => hq, rfl, rfl⟩
  | cons cp rest ih =>
      intro s run
      rcases hC : clipPredFromSoundevent s cp with ⟨p, s1⟩
      have hspec := clipPredFromSoundevent_spec s cp
      rw [hC] at hspec
      obtain ⟨hfind1, hpres1, hruns1, hassoc1, hcache1⟩ := hspec
      by_cases hmem : (run.id, p.id) ∈ s1.urPredRows
      · have hadd := urAdd_false_of_mem hmem
        have hstep : urUpdateLoop s run (cp :: rest) = urUpdateLoop s1 run rest := by
          simp only [urUpdateLoop, hC, hadd]
        obtain ⟨ih1, ih2, ih3, ih4, ih5, ih6⟩ := ih s1 run
        rw [hstep]
        refine ⟨ih1, ?_, ?_, ?_, ih5.trans hruns1, ih6.trans hcache1⟩
        · intro c hc
          rcases List.mem_cons.mp hc with rfl | hc'
          · exact ⟨p, ih3 c.uuid p hfind1, ih4 _ hmem⟩
          · exact ih2 c hc'
        · intro u q h
          exact ih3 u q (hpres1 u q h)
        · intro q hq
          exact ih4 q (by rw [hassoc1]; exact hq)
      · have hadd := urAdd_false_of_not_mem hmem
        have hstep : urUpdateLoop s run (cp :: rest)
            = urUpdateLoop { s1 with urPredRows := s1.urPredRows ++ [(run.id, p.id)] }
                run rest := by
          simp only [urUpdateLoop, hC, hadd]
        obtain ⟨ih1, ih2, ih3, ih4, ih5, ih6⟩ :=
          ih { s1 with urPredRows := s1.urPredRows ++ [(run.id, p.id)] } run
        rw [hstep]
        refine ⟨ih1, ?_, ?_, ?_, ih5.trans hruns1, ih6.trans hcache1⟩
        · intro c hc
          rcases List.mem_cons.mp hc with rfl | hc'
          · refine ⟨p, ih3 c.uuid p hfind1, ih4 _ ?_⟩
            exact List.mem_append_right _ (List.mem_singleton.mpr rfl)
          · exact ih2 c hc'
        · intro u q h
          exact ih3 u q (hpres1 u q h)
        · intro q hq
          refine ih4 q (List.mem_append_left _ ?_)
          rw [hassoc1]
          exact hq

theorem urLoop_stable (cps : List SEClipPrediction) :
    ∀ (s : URState) (run : UserRunRow),
      (∀ cp ∈ cps, ∃ p,
        s.clipPreds.find? (fun r => r.uuid == cp.uuid) = some p ∧
        (run.id, p.id) ∈ s.urPredRows) →
      urUpdateLoop s run cps = (run, s) := by
  induction cps with
  | nil => intro s run _; rfl
  | cons cp rest ih =>
      intro s run h
      obtain ⟨p, hf, hmem⟩ := h cp (List.mem_cons_self cp rest)
      have hC : clipPredFromSoundevent s cp = (p, s) := by
        unfold clipPredFromSoundevent
        rw [hf]
      have hadd := urAdd_false_of_mem hmem
      have hstep : urUpdateLoop s run (cp :: rest) = urUpdateLoop s run rest := by
        simp only [urUpdateLoop, hC, hadd]
      rw [hstep]
      exact ih s run (fun c hc => h c (List.mem_cons_of_mem cp hc))

/-- Claim C6: `add_clip_prediction` with `raise_if_exists=False` is a no-op
when the association already exists (the duplicate error is swallowed, the
association rows are unchanged and the run is returned), and importing the
same prediction set twice through `update_from_soundevent` leaves the state
— in particular the set of user-run/clip-prediction associations — exactly
as after importing it once. -/
theorem claim_C6_add_clip_prediction_idempotent (s : URState)
    (run : UserRunRow) (cp : ClipPredRow) (ps : SEPredictionSet) :
    ((run.id, cp.id) ∈ s.urPredRows →
      urAddClipPrediction s run cp false = (.ok run, s)) ∧
    urUpdateFromSoundevent (urUpdateFromSoundevent s run ps).2
        (urUpdateFromSoundevent s run ps).1 ps
      = ((urUpdateFromSoundevent s run ps).1,
         (urUpdateFromSoundevent s run ps).2) ∧
    (urUpdateFromSoundevent (urUpdateFromSoundevent s run ps).2
        (urUpdateFromSoundevent s run ps).1 ps).2.urPredRows
      = (urUpdateFromSoundevent s run ps).2.urPredRows := by
  obtain ⟨h1, h2, -, -, -, -⟩ := urLoop_spec ps.clip_predictions s run
  have hstable :
      urUpdateLoop (urUpdateLoop s run ps.clip_predictions).2 run
          ps.clip_predictions
        = (run, (urUpdateLoop s run ps.clip_predictions).2) :=
    urLoop_stable ps.clip_predictions _ run h2
  refine ⟨fun hmem => urAdd_false_of_mem hmem, ?_, ?_⟩
  · unfold urUpdateFromSoundevent
    rw [h1, hstable, ← h1]
  · unfold urUpdateFromSoundevent
    rw [h1, hstable]

/-- Application of C6 at a concrete state: a present association is a no-op,
and a double import leaves the association rows unchanged. -/
theorem claim_C6_witness :
    urAddClipPrediction ⟨[], [], [⟨0, 4⟩], [(1, 0)], LRUCache.empty 1000, 1⟩
        ⟨1, 8, 0, 0⟩ ⟨0, 4⟩ false
      = (.ok ⟨1, 8, 0, 0⟩,
         ⟨[], [], [⟨0, 4⟩], [(1, 0)], LRUCache.empty 1000, 1⟩) ∧
    (urUpdateFromSoundevent
        (urUpdateFromSoundevent
          ⟨[], [], [⟨0, 4⟩], [(1, 0)], LRUCache.empty 1000, 1⟩
          ⟨1, 8, 0, 0⟩ ⟨9, 0, [⟨4⟩]⟩).2
        (urUpdateFromSoundevent
          ⟨[], [], [⟨0, 4⟩], [(1, 0)], LRUCache.empty 1000, 1⟩
          ⟨1, 8, 0, 0⟩ ⟨9, 0, [⟨4⟩]⟩).1 ⟨9, 0, [⟨4⟩]⟩).2.urPredRows
      = (urUpdateFromSoundevent
          ⟨[], [], [⟨0, 4⟩], [(1, 0)], LRUCache.empty 1000, 1⟩
          ⟨1, 8, 0, 0⟩ ⟨9, 0, [⟨4⟩]⟩).2.urPredRows :=
  ⟨(claim_C6_add_clip_prediction_idempotent
      ⟨[], [], [⟨0, 4⟩], [(1, 0)], LRUCache.empty 1000, 1⟩
      ⟨1, 8, 0, 0⟩ ⟨0, 4⟩ ⟨9, 0, [⟨4⟩]⟩).1 (by decide),
   (claim_C6_add_clip_prediction_idempotent
      ⟨[], [], [⟨0, 4⟩], [(1, 0)], LRUCache.empty 1000, 1⟩
      ⟨1, 8, 0, 0⟩ ⟨0, 4⟩ ⟨9, 0, [⟨4⟩]⟩).2.2⟩

/-- Claim C7: `sound_event_predictions.add_tag` is idempotent: when the
prediction already has a predicted tag with `tag_id`, no
`SoundEventPredictionTag` row is created (regardless of the score argument)
and the prediction is returned unchanged; `from_soundevent` relies on this
by skipping tags whose (key, value) pair is already present — when every
predicted tag of `d` is already on the fetched prediction, the import
returns it with no further change. -/
theorem claim_C7_add_tag_idempotent (s : SEPState) (predId tagId score : Nat)
    (d : SESoundEventPrediction) (cpid : Nat) :
    (∀ row, s.sepRows.find? (fun r => r.id == predId) = some row →
      s.sepTagRows.any (fun r =>
          r.sound_event_prediction_id == predId && r.tag_id == tagId) = true →
      (sepAddTag s predId tagId score).1 = .ok (sepValidate s row) ∧
      (sepAddTag s predId tagId score).2.sepTagRows = s.sepTagRows ∧
      (sepAddTag s predId tagId score).2.sepRows = s.sepRows) ∧
    (∀ p s1, sepGetByUuid s d.uuid = (.ok p, s1) →
      (∀ pt ∈ d.tags, (pt.tag.key, pt.tag.value) ∈
          p.predicted_tags.map (fun t => (t.tag.key, t.tag.value))) →
      sepFromSoundevent s d cpid = (.ok p, s1)) := by
  constructor
  · intro row hrow hany
    refine ⟨?_, ?_, ?_⟩ <;> simp [sepAddTag, hrow, hany]
  · intro p s1 hget hall
    have hloop : ∀ (tags : List SEPredictedTag),
        (∀ pt ∈ tags, (pt.tag.key, pt.tag.value) ∈
          p.predicted_tags.map (fun t => (t.tag.key, t.tag.value))) →
        sepImportTags s1 p
          (p.predicted_tags.map (fun t => (t.tag.key, t.tag.value))) tags
          = (.ok p, s1) := by
      intro tags
      induction tags with
      | nil => intro _; rfl
      | cons pt rest ih =>
          intro h
          have hmem := h pt (List.mem_cons_self pt rest)
          have hred : sepImportTags s1 p
              (p.predicted_tags.map (fun t => (t.tag.key, t.tag.value)))
              (pt :: rest)
            = sepImportTags s1 p
              (p.predicted_tags.map (fun t => (t.tag.key, t.tag.value))) rest := by
            simp only [sepImportTags]
            rw [if_pos hmem]
          rw [hred]
          exact ih (fun q hq => h q (List.mem_cons_of_mem pt hq))
    unfold sepFromSoundevent
    rw [hget]
    exact hloop d.tags hall

/-- Application of C7 at a concrete prediction: `add_tag` with an already
present tag id (and a fresh score) creates nothing, and `from_soundevent`
with an already present (key, value) pair changes nothing. -/
theorem claim_C7_witness :
    ((sepAddTag ⟨[], [], [⟨0, 11, 0, 0, 5⟩], [⟨0, 3, 9⟩], [⟨3, "k", "v"⟩],
        LRUCache.empty 1000, 4⟩ 0 3 42).1
      = .ok (sepValidate ⟨[], [], [⟨0, 11, 0, 0, 5⟩], [⟨0, 3, 9⟩],
          [⟨3, "k", "v"⟩], LRUCache.empty 1000, 4⟩ ⟨0, 11, 0, 0, 5⟩)) ∧
    ((sepAddTag ⟨[], [], [⟨0, 11, 0, 0, 5⟩], [⟨0, 3, 9⟩], [⟨3, "k", "v"⟩],
        LRUCache.empty 1000, 4⟩ 0 3 42).2.sepTagRows = [⟨0, 3, 9⟩]) ∧
    (sepFromSoundevent ⟨[], [], [⟨0, 11, 0, 0, 5⟩], [⟨0, 3, 9⟩],
        [⟨3, "k", "v"⟩], LRUCache.empty 1000, 4⟩
        ⟨11, 0, 5, [⟨⟨"k", "v"⟩, 1⟩]⟩ 0
      = (.ok ⟨0, 11, 5, [⟨⟨3, "k", "v"⟩, 9⟩]⟩,
         ⟨[], [], [⟨0, 11, 0, 0, 5⟩], [⟨0, 3, 9⟩], [⟨3, "k", "v"⟩],
          ⟨[(11, ⟨0, 11, 5, [⟨⟨3, "k", "v"⟩, 9⟩]⟩)], 1000⟩, 4⟩)) :=
  ⟨((claim_C7_add_tag_idempotent ⟨[], [], [⟨0, 11, 0, 0, 5⟩], [⟨0, 3, 9⟩],
      [⟨3, "k", "v"⟩], LRUCache.empty 1000, 4⟩ 0 3 42
      ⟨11, 0, 5, [⟨⟨"k", "v"⟩, 1⟩]⟩ 0).1 ⟨0, 11, 0, 0, 5⟩ rfl (by decide)).1,
   ((claim_C7_add_tag_idempotent ⟨[], [], [⟨0, 11, 0, 0, 5⟩], [⟨0, 3, 9⟩],
      [⟨3, "k", "v"⟩], LRUCache.empty 1000, 4⟩ 0 3 42
      ⟨11, 0, 5, [⟨⟨"k", "v"⟩, 1⟩]⟩ 0).1 ⟨0, 11, 0, 0, 5⟩ rfl (by decide)).2.1,
   (claim_C7_add_tag_idempotent ⟨[], [], [⟨0, 11, 0, 0, 5⟩], [⟨0, 3, 9⟩],
      [⟨3, "k", "v"⟩], LRUCache.empty 1000, 4⟩ 0 3 42
      ⟨11, 0, 5, [⟨⟨"k", "v"⟩, 1⟩]⟩ 0).2
      ⟨0, 11, 5, [⟨⟨3, "k", "v"⟩, 9⟩]⟩
      ⟨[], [], [⟨0, 11, 0, 0, 5⟩], [⟨0, 3, 9⟩], [⟨3, "k", "v"⟩],
       ⟨[(11, ⟨0, 11, 5, [⟨⟨3, "k", "v"⟩, 9⟩]⟩)], 1000⟩, 4⟩
      rfl (by decide)⟩

theorem esFromSoundevent_spec (s : ESState) (d : SEEvaluationSet)
    (hwf : esWF s) :
    ∃ obj s', esFromSoundevent s d = (.ok obj, s') ∧
      obj.uuid = d.uuid ∧ esWF s' ∧
      (∀ row, s.evalsets.find? (fun r => r.uuid == d.uuid) = some row →
        s'.evalsets = s.evalsets ∧ obj = esValidate s row) ∧
      (s'.evalsets.find? (fun r => r.uuid == d.uuid)).isSome ∧
      s'.evalsets.length ≤ s.evalsets.length + 1 := by
  cases hg : s.cache.getitem d.uuid with
  | some vc =>
      obtain ⟨v, c'⟩ := vc
      obtain ⟨hmem, hmax', hsub⟩ := LRUCache.mem_getitem hg
      obtain ⟨hkey, row0, hrow0, hval0⟩ := hwf (d.uuid, v) hmem
      have hres : esFromSoundevent s d
          = (.ok v, { s with cache := c'.setitem v.uuid v }) := by
        simp [esFromSoundevent, esGet, hg, esUpdateCache]
      refine ⟨v, _, hres, hkey.symm, ?_, ?_, ?_, ?_⟩
      · intro p hp
        rcases LRUCache.mem_setitem hp with rfl | ⟨hpe, -⟩
        · refine ⟨rfl, row0, ?_, hval0⟩
          rw [← hkey]
          exact hrow0
        · rcases hsub p hpe with rfl | ⟨hpe', -⟩
          · exact ⟨hkey, row0, hrow0, hval0⟩
          · exact hwf p hpe'
      · intro row hrow
        rw [hrow0] at hrow
        injection hrow with h
        exact ⟨rfl, h ▸ hval0⟩
      · show ((s.evalsets.find? (fun r => r.uuid == d.uuid)).isSome = true)
        rw [hrow0]; rfl
      · exact Nat.le_succ _
  | none =>
      cases hr : s.evalsets.find? (fun r => r.uuid == d.uuid) with
      | some row =>
          have hruuid : row.uuid = d.uuid := by simpa using List.find?_some hr
          have hres : esFromSoundevent s d
              = (.ok (esValidate s row),
                 { s with cache :=
                     ((s.cache.setitem d.uuid (esValidate s row)).setitem
                       (esValidate s row).uuid (esValidate s row)) }) := by
            simp [esFromSoundevent, esGet, hg, hr, esUpdateCache]
          refine ⟨esValidate s row, _, hres, hruuid, ?_, ?_, ?_, ?_⟩
          · intro p hp
            rcases LRUCache.mem_setitem hp with rfl | ⟨hpe, -⟩
            · refine ⟨rfl, row, ?_, rfl⟩
              show s.evalsets.find?
                  (fun r => r.uuid == (esValidate s row).uuid) = some row
              simp only [esValidate, hruuid]
              exact hr
            · rcases LRUCache.mem_setitem hpe with rfl | ⟨hpe', -⟩
              · exact ⟨hruuid.symm, row, hr, rfl⟩
              · exact hwf p hpe'
          · intro row' hrow'
            injection hrow' with h
            exact ⟨rfl, by rw [h]⟩
          · show ((s.evalsets.find? (fun r => r.uuid == d.uuid)).isSome = true)
            rw [hr]; rfl
          · exact Nat.le_succ _
      | none =>
          have hck : s.cache.containsKey d.uuid = false := by
            have h := LRUCache.getitem_isSome_iff s.cache d.uuid
            rw [hg] at h
            exact h.symm
          have hres := esFromSoundevent_fresh s d hck hr
          have hfind :
              (s.evalsets
                  ++ [(⟨s.nextId, d.uuid, d.created_on, d.name,
                        d.description⟩ : EvaluationSetRow)]).find?
                  (fun r => r.uuid == d.uuid)
                = some (⟨s.nextId, d.uuid, d.created_on, d.name,
                    d.description⟩ : EvaluationSetRow) := by
            rw [find?_append_of_none _ hr, List.find?_cons_of_pos _ (by simp)]
          refine ⟨_, _, hres, rfl, ?_, ?_, ?_, ?_⟩
          · intro p hp
            rcases LRUCache.mem_setitem hp with rfl | ⟨hpe, -⟩
            · exact ⟨rfl,
                (⟨s.nextId, d.uuid, d.created_on, d.name,
                  d.description⟩ : EvaluationSetRow),
                hfind, rfl⟩
            · rcases LRUCache.mem_setitem hpe with rfl | ⟨hpe', -⟩
              · exact ⟨rfl,
                  (⟨s.nextId, d.uuid, d.created_on, d.name,
                    d.description⟩ : EvaluationSetRow),
                  hfind, rfl⟩
              · obtain ⟨hk, row', hrow', hval'⟩ := hwf p hpe'
                exact ⟨hk, row', find?_append_of_some hrow', hval'⟩
          · intro row' hrow'
            exact absurd hrow' (by simp)
          · show (((s.evalsets
                ++ [(⟨s.nextId, d.uuid, d.created_on, d.name,
                      d.description⟩ : EvaluationSetRow)]).find?
                (fun r => r.uuid == d.uuid)).isSome = true)
            rw [hfind]; rfl
          · show (s.evalsets
                ++ [(⟨s.nextId, d.uuid, d.created_on, d.name,
                      d.description⟩ : EvaluationSetRow)]).length
              ≤ s.evalsets.length + 1
            simp

theorem userFromSoundevent_fields (s : URState) (u : SEUser) :
    (userFromSoundevent s u).2.userRuns = s.userRuns ∧
    (userFromSoundevent s u).2.clipPreds = s.clipPreds ∧
    (userFromSoundevent s u).2.urPredRows = s.urPredRows ∧
    (userFromSoundevent s u).2.cache = s.cache := by
  unfold userFromSoundevent
  cases hf : s.users.find? (fun r => r.uuid == u.uuid) <;> simp

theorem urWF_of_eq {s t : URState} (h : urWF s) (hc : t.cache = s.cache)
    (hr : t.userRuns = s.userRuns) : urWF t := by
  intro p hp
  rw [hc] at hp
  rw [hr]
  exact h p hp

theorem urFromSoundevent_spec (s : URState) (ps : SEPredictionSet)
    (user : SEUser) (hwf : urWF s) :
    ∃ run s', urFromSoundevent s ps user = (.ok run, s') ∧
      run.uuid = ps.uuid ∧ urWF s' ∧
      (∀ row, s.userRuns.find? (fun r => r.uuid == ps.uuid) = some row →
        s'.userRuns = s.userRuns ∧ run = row) ∧
      (s'.userRuns.find? (fun r => r.uuid == ps.uuid)).isSome ∧
      s'.userRuns.length ≤ s.userRuns.length + 1 := by
  rcases hU : userFromSoundevent s user with ⟨wuser, s1⟩
  have hUf := userFromSoundevent_fields s user
  rw [hU] at hUf
  obtain ⟨hU1, hU2, hU3, hU4⟩ := hUf
  have hc1 : s1.userRuns = s.userRuns := hU1
  have hc4 : s1.cache = s.cache := hU4
  have hwf1 : urWF s1 := urWF_of_eq hwf hc4 hc1
  cases hg : s1.cache.getitem ps.uuid with
  | some vc =>
      obtain ⟨v, c'⟩ := vc
      obtain ⟨hmem, -, hsub⟩ := LRUCache.mem_getitem hg
      obtain ⟨hkey, hrow⟩ := hwf1 (ps.uuid, v) hmem
      obtain ⟨hl1, -, -, -, hl5, hl6⟩ :=
        urLoop_spec ps.clip_predictions { s1 with cache := c' } v
      have hres : urFromSoundevent s ps user
          = (.ok (urUpdateLoop { s1 with cache := c' } v ps.clip_predictions).1,
             (urUpdateLoop { s1 with cache := c' } v ps.clip_predictions).2) := by
        simp [urFromSoundevent, hU, urGet, hg, urUpdateFromSoundevent]
      rw [hl1] at hres
      have hl5' : (urUpdateLoop { s1 with cache := c' } v
          ps.clip_predictions).2.userRuns = s1.userRuns := hl5
      have hl6' : (urUpdateLoop { s1 with cache := c' } v
          ps.clip_predictions).2.cache = c' := hl6
      have hrow' : s.userRuns.find? (fun r => r.uuid == ps.uuid) = some v := by
        rw [← hc1]; exact hrow
      refine ⟨v, _, hres, hkey.symm, ?_, ?_, ?_, ?_⟩
      · refine urWF_of_eq (s := { s1 with cache := c' })
          (t := (urUpdateLoop { s1 with cache := c' } v
          ps.clip_predictions).2) ?_ hl6' hl5'
        intro p hp
        rcases hsub p hp with rfl | ⟨hpe, -⟩
        · exact ⟨hkey, hrow⟩
        · exact hwf1 p hpe
      · intro row hfind
        rw [hrow'] at hfind
        injection hfind with h
        exact ⟨hl5'.trans hc1, h⟩
      · rw [hl5', hrow]
        rfl
      · rw [hl5', hc1]
        exact Nat.le_succ _
  | none =>
      cases hr : s1.userRuns.find? (fun r => r.uuid == ps.uuid) with
      | some row =>
          have hrowuuid : row.uuid = ps.uuid := by simpa using List.find?_some hr
          obtain ⟨hl1, -, -, -, hl5, hl6⟩ :=
            urLoop_spec ps.clip_predictions
              { s1 with cache := s1.cache.setitem ps.uuid row } row
          have hres : urFromSoundevent s ps user
              = (.ok (urUpdateLoop
                    { s1 with cache := s1.cache.setitem ps.uuid row } row
                    ps.clip_predictions).1,
                 (urUpdateLoop
                    { s1 with cache := s1.cache.setitem ps.uuid row } row
                    ps.clip_predictions).2) := by
            simp [urFromSoundevent, hU, urGet, hg, hr, urUpdateFromSoundevent]
          rw [hl1] at hres
          have hl5' : (urUpdateLoop
              { s1 with cache := s1.cache.setitem ps.uuid row } row
              ps.clip_predictions).2.userRuns = s1.userRuns := hl5
          have hl6' : (urUpdateLoop
              { s1 with cache := s1.cache.setitem ps.uuid row } row
              ps.clip_predictions).2.cache = s1.cache.setitem ps.uuid row := hl6
          have hrow' : s.userRuns.find? (fun r => r.uuid == ps.uuid)
              = some row := by
            rw [← hc1]; exact hr
          refine ⟨row, _, hres, hrowuuid, ?_, ?_, ?_, ?_⟩
          · refine urWF_of_eq
              (s := { s1 with cache := s1.cache.setitem ps.uuid row })
              (t := (urUpdateLoop
              { s1 with cache := s1.cache.setitem ps.uuid row } row
              ps.clip_predictions).2) ?_ hl6' hl5'
            intro p hp
            rcases LRUCache.mem_setitem hp with rfl | ⟨hpe, -⟩
            · exact ⟨hrowuuid.symm, hr⟩
            · exact hwf1 p hpe
          · intro row0 hfind
            rw [hrow'] at hfind
            injection hfind with h
            exact ⟨hl5'.trans hc1, h⟩
          · rw [hl5', hr]
            rfl
          · rw [hl5', hc1]
            exact Nat.le_succ _
      | none =>
          have hany : s1.userRuns.any (fun r => r.uuid == ps.uuid) = false := by
            rw [List.any_eq_false]
            intro x hx
            exact List.find?_eq_none.mp hr x hx
          have hfind : (s1.userRuns
                ++ [(⟨s1.nextId, ps.uuid, ps.created_on,
                      wuser.id⟩ : UserRunRow)]).find?
                (fun r => r.uuid == ps.uuid)
              = some (⟨s1.nextId, ps.uuid, ps.created_on,
                  wuser.id⟩ : UserRunRow) := by
            rw [find?_append_of_none _ hr, List.find?_cons_of_pos _ (by simp)]
          obtain ⟨hl1, -, -, -, hl5, hl6⟩ :=
            urLoop_spec ps.clip_predictions
              { s1 with
                userRuns := s1.userRuns
                  ++ [⟨s1.nextId, ps.uuid, ps.created_on, wuser.id⟩],
                cache := s1.cache.setitem ps.uuid
                  ⟨s1.nextId, ps.uuid, ps.created_on, wuser.id⟩,
                nextId := s1.nextId + 1 }
              ⟨s1.nextId, ps.uuid, ps.created_on, wuser.id⟩
          have hres : urFromSoundevent s ps user
              = (.ok (urUpdateLoop
                    { s1 with
                      userRuns := s1.userRuns
                        ++ [⟨s1.nextId, ps.uuid, ps.created_on, wuser.id⟩],
                      cache := s1.cache.setitem ps.uuid
                        ⟨s1.nextId, ps.uuid, ps.created_on, wuser.id⟩,
                      nextId := s1.nextId + 1 }
                    ⟨s1.nextId, ps.uuid, ps.created_on, wuser.id⟩
                    ps.clip_predictions).1,
                 (urUpdateLoop
                    { s1 with
                      userRuns := s1.userRuns
                        ++ [⟨s1.nextId, ps.uuid, ps.created_on, wuser.id⟩],
                      cache := s1.cache.setitem ps.uuid
                        ⟨s1.nextId, ps.uuid, ps.created_on, wuser.id⟩,
                      nextId := s1.nextId + 1 }
                    ⟨s1.nextId, ps.uuid, ps.created_on, wuser.id⟩
                    ps.clip_predictions).2) := by
            simp [urFromSoundevent, hU, urGet, hg, hr, urCreate, hany,
              urUpdateFromSoundevent]
          rw [hl1] at hres
          have hl5' : (urUpdateLoop
              { s1 with
                userRuns := s1.userRuns
                  ++ [⟨s1.nextId, ps.uuid, ps.created_on, wuser.id⟩],
                cache := s1.cache.setitem ps.uuid
                  ⟨s1.nextId, ps.uuid, ps.created_on, wuser.id⟩,
                nextId := s1.nextId + 1 }
              ⟨s1.nextId, ps.uuid, ps.created_on, wuser.id⟩
              ps.clip_predictions).2.userRuns
            = s1.userRuns
              ++ [⟨s1.nextId, ps.uuid, ps.created_on, wuser.id⟩] := hl5
          have hl6' : (urUpdateLoop
              { s1 with
                userRuns := s1.userRuns
                  ++ [⟨s1.nextId, ps.uuid, ps.created_on, wuser.id⟩],
                cache := s1.cache.setitem ps.uuid
                  ⟨s1.nextId, ps.uuid, ps.created_on, wuser.id⟩,
                nextId := s1.nextId + 1 }
              ⟨s1.nextId, ps.uuid, ps.created_on, wuser.id⟩
              ps.clip_predictions).2.cache
            = s1.cache.setitem ps.uuid
                ⟨s1.nextId, ps.uuid, ps.created_on, wuser.id⟩ := hl6
          refine ⟨⟨s1.nextId, ps.uuid, ps.created_on, wuser.id⟩, _, hres, rfl,
            ?_, ?_, ?_, ?_⟩
          · refine urWF_of_eq
              (s := { s1 with
                userRuns := s1.userRuns
                  ++ [⟨s1.nextId, ps.uuid, ps.created_on, wuser.id⟩],
                cache := s1.cache.setitem ps.uuid
                  ⟨s1.nextId, ps.uuid, ps.created_on, wuser.id⟩,
                nextId := s1.nextId + 1 }) ?_ hl6' hl5'
            intro p hp
            rcases LRUCache.mem_setitem hp with rfl | ⟨hpe, -⟩
            · exact ⟨rfl, hfind⟩
            · obtain ⟨hk, hfold⟩ := hwf1 p hpe
              exact ⟨hk, find?_append_of_some hfold⟩
          · intro row0 hfind0
            rw [← hc1, hr] at hfind0
            exact absurd hfind0 (by simp)
          · rw [hl5', hfind]
            rfl
          · rw [hl5']
            simp [hc1]

theorem find?_by_id_of_mem_nodup {l : List SEPRow} {row : SEPRow}
    (hnd : l.Pairwise (fun a b => a.id ≠ b.id)) (hm : row ∈ l) :
    l.find? (fun r => r.id == row.id) = some row := by
  induction l with
  | nil => cases hm
  | cons x xs ih =>
      obtain ⟨hx, hnd'⟩ := List.pairwise_cons.mp hnd
      rcases List.mem_cons.mp hm with rfl | hm'
      · rw [List.find?_cons_of_pos _ (by simp)]
      · have hne : x.id ≠ row.id := hx row hm'
        rw [List.find?_cons_of_neg _ (by simp [hne])]
        exact ih hnd' hm'

theorem id_eq_of_mem_nodup {l : List SEPRow} {a b : SEPRow}
    (hnd : l.Pairwise (fun a b => a.id ≠ b.id)) (ha : a ∈ l) (hb : b ∈ l)
    (h : a.id = b.id) : a = b := by
  have h1 := find?_by_id_of_mem_nodup hnd ha
  have h2 := find?_by_id_of_mem_nodup hnd hb
  rw [h] at h1
  rw [h1] at h2
  injection h2

theorem find?_tag_isSome_of_mem {l : List Tag} {x : Tag} (h : x ∈ l) :
    (l.find? (fun t => t.id == x.id)).isSome := by
  rw [List.find?_isSome]
  exact ⟨x, h, by simp⟩

theorem sepTagsOf_append_tags (rows : List SEPTagRow) (tagsDb ts : List Tag)
    (predId : Nat)
    (h : ∀ tr ∈ rows, (tagsDb.find? (fun t => t.id == tr.tag_id)).isSome) :
    sepTagsOf rows (tagsDb ++ ts) predId = sepTagsOf rows tagsDb predId := by
  unfold sepTagsOf
  apply List.filterMap_congr
  intro tr htr
  have htr' : tr ∈ rows := List.mem_of_mem_filter htr
  obtain ⟨t, ht⟩ := Option.isSome_iff_exists.mp (h tr htr')
  rw [ht, find?_append_of_some ht]

theorem sepTagsOf_append_row_ne (rows : List SEPTagRow) (tagsDb : List Tag)
    (tr : SEPTagRow) (predId : Nat)
    (h : tr.sound_event_prediction_id ≠ predId) :
    sepTagsOf (rows ++ [tr]) tagsDb predId = sepTagsOf rows tagsDb predId := by
  unfold sepTagsOf
  rw [List.filter_append]
  have hnil : List.filter
      (fun r => r.sound_event_prediction_id == predId) [tr] = [] := by
    simp [h]
  rw [hnil, List.append_nil]

theorem sepWF_of_eq {s t : SEPState} (h : sepWF s)
    (h1 : t.sepRows = s.sepRows) (h2 : t.sepTagRows = s.sepTagRows)
    (h3 : t.tagsDb = s.tagsDb) (h4 : t.cacheByUuid = s.cacheByUuid)
    (h5 : s.nextId ≤ t.nextId) : sepWF t := by
  obtain ⟨hcoh, hnd, hid, hfk⟩ := h
  refine ⟨?_, by rw [h1]; exact hnd, ?_, ?_⟩
  · intro p hp
    rw [h4] at hp
    obtain ⟨hk, row, hrow, hval⟩ := hcoh p hp
    refine ⟨hk, row, by rw [h1]; exact hrow, ?_⟩
    rw [hval]
    unfold sepValidate
    rw [h2, h3]
  · intro r hr
    rw [h1] at hr
    exact Nat.lt_of_lt_of_le (hid r hr) h5
  · intro tr htr
    rw [h2] at htr
    rw [h3]
    exact hfk tr htr

theorem sepTagFromSoundevent_eq_found {s : SEPState} {t : SETag} {u : Tag}
    (hf : s.tagsDb.find?
        (fun w => w.key == t.key && w.value == t.value) = some u) :
    sepTagFromSoundevent s t = (u, s) := by
  simp [sepTagFromSoundevent, tagFromSoundevent, hf]

theorem sepTagFromSoundevent_eq_fresh {s : SEPState} {t : SETag}
    (hf : s.tagsDb.find?
        (fun w => w.key == t.key && w.value == t.value) = none) :
    sepTagFromSoundevent s t
      = (⟨s.nextId, t.key, t.value⟩,
         { s with tagsDb := s.tagsDb ++ [⟨s.nextId, t.key, t.value⟩],
                  nextId := s.nextId + 1 }) := by
  simp [sepTagFromSoundevent, tagFromSoundevent, hf]

theorem sepTag_upsert_spec (s : SEPState) (t : SETag) (hwf : sepWF s) :
    sepWF (sepTagFromSoundevent s t).2 ∧
    ((sepTagFromSoundevent s t).2.tagsDb.find?
        (fun w => w.id == (sepTagFromSoundevent s t).1.id)).isSome ∧
    (sepTagFromSoundevent s t).2.sepRows = s.sepRows ∧
    (sepTagFromSoundevent s t).2.sepTagRows = s.sepTagRows ∧
    (sepTagFromSoundevent s t).2.cacheByUuid = s.cacheByUuid ∧
    (sepTagFromSoundevent s t).2.clipPredRows = s.clipPredRows ∧
    s.nextId ≤ (sepTagFromSoundevent s t).2.nextId ∧
    (∀ rid, sepTagsOf (sepTagFromSoundevent s t).2.sepTagRows
        (sepTagFromSoundevent s t).2.tagsDb rid
      = sepTagsOf s.sepTagRows s.tagsDb rid) := by
  obtain ⟨hcoh, hnd, hid, hfk⟩ := hwf
  cases hf : s.tagsDb.find?
      (fun w => w.key == t.key && w.value == t.value) with
  | some u =>
      rw [sepTagFromSoundevent_eq_found hf]
      exact ⟨⟨hcoh, hnd, hid, hfk⟩,
        find?_tag_isSome_of_mem (List.mem_of_find?_eq_some hf),
        rfl, rfl, rfl, rfl, Nat.le_refl _, fun rid => rfl⟩
  | none =>
      rw [sepTagFromSoundevent_eq_fresh hf]
      have htags : ∀ rid, sepTagsOf s.sepTagRows
          (s.tagsDb ++ [⟨s.nextId, t.key, t.value⟩]) rid
        = sepTagsOf s.sepTagRows s.tagsDb rid := fun rid =>
        sepTagsOf_append_tags _ _ _ _ (fun tr htr => hfk tr htr)
      refine ⟨⟨?_, hnd, ?_, ?_⟩, ?_, rfl, rfl, rfl, rfl, Nat.le_succ _, htags⟩
      · intro p hp
        obtain ⟨hk, row, hrow, hval⟩ := hcoh p hp
        refine ⟨hk, row, hrow, ?_⟩
        rw [hval]
        unfold sepValidate
        rw [htags row.id]
      · intro r hr
        exact Nat.lt_succ_of_lt (hid r hr)
      · intro tr htr
        obtain ⟨u, hu⟩ := Option.isSome_iff_exists.mp (hfk tr htr)
        rw [find?_append_of_some hu]
        rfl
      · cases hfi : s.tagsDb.find? (fun w => w.id == s.nextId) with
        | some w => rw [find?_append_of_some hfi]; rfl
        | none =>
            rw [find?_append_of_none _ hfi,
              List.find?_cons_of_pos _ (by simp)]
            rfl

theorem soundEventFromSoundevent_fields (s : SEPState) (u : Nat) :
    (soundEventFromSoundevent s u).2.clipPredRows = s.clipPredRows ∧
    (soundEventFromSoundevent s u).2.sepRows = s.sepRows ∧
    (soundEventFromSoundevent s u).2.sepTagRows = s.sepTagRows ∧
    (soundEventFromSoundevent s u).2.tagsDb = s.tagsDb ∧
    (soundEventFromSoundevent s u).2.cacheByUuid = s.cacheByUuid ∧
    s.nextId ≤ (soundEventFromSoundevent s u).2.nextId := by
  unfold soundEventFromSoundevent
  cases hf : s.soundEvents.find? (fun r => r.uuid == u) <;> simp

theorem sepAddTag_hit {s : SEPState} {row : SEPRow} {predId tagId : Nat}
    (score : Nat)
    (hrow : s.sepRows.find? (fun r => r.id == predId) = some row)
    (hhas : s.sepTagRows.any (fun r =>
        r.sound_event_prediction_id == predId && r.tag_id == tagId) = true) :
    sepAddTag s predId tagId score
      = (.ok (sepValidate s row),
         { s with cacheByUuid := (s.cacheByUuid.setitem
             (sepValidate s row).uuid (sepValidate s row)) }) := by
  simp [sepAddTag, hrow, hhas]

theorem sepAddTag_fresh {s : SEPState} {row : SEPRow} {predId tagId : Nat}
    (score : Nat)
    (hrow : s.sepRows.find? (fun r => r.id == predId) = some row)
    (hhas : s.sepTagRows.any (fun r =>
        r.sound_event_prediction_id == predId && r.tag_id == tagId) = false) :
    sepAddTag s predId tagId score
      = (.ok (sepValidate
            { s with sepTagRows := s.sepTagRows ++ [⟨predId, tagId, score⟩] } row),
         { s with
             sepTagRows := s.sepTagRows ++ [⟨predId, tagId, score⟩],
             cacheByUuid := (s.cacheByUuid.setitem
               (sepValidate { s with
                   sepTagRows := s.sepTagRows ++ [⟨predId, tagId, score⟩] } row).uuid
               (sepValidate { s with
                   sepTagRows := s.sepTagRows ++ [⟨predId, tagId, score⟩] } row)) }) := by
  simp [sepAddTag, hrow, hhas]

theorem sepImportTags_spec (tags : List SEPredictedTag) :
    ∀ (t : SEPState) (q : SEPSchema) (existing : List (String × String))
      (row : SEPRow),
      sepWF t →
      t.sepRows.find? (fun r => r.uuid == row.uuid) = some row →
      q.id = row.id → q.uuid = row.uuid →
      ∃ q' t', sepImportTags t q existing tags = (.ok q', t') ∧
        q'.uuid = row.uuid ∧ sepWF t' ∧
        t'.sepRows = t.sepRows ∧ t'.clipPredRows = t.clipPredRows := by
  induction tags with
  | nil =>
      intro t q existing row hwf hrow hqid hquuid
      exact ⟨q, t, rfl, hquuid, hwf, rfl, rfl⟩
  | cons pt rest ih =>
      intro t q existing row hwf hrow hqid hquuid
      by_cases hmem : (pt.tag.key, pt.tag.value) ∈ existing
      · have hstep : sepImportTags t q existing (pt :: rest)
            = sepImportTags t q existing rest := by
          simp only [sepImportTags]
          rw [if_pos hmem]
        obtain ⟨q', t', hres, h1, h2, h3, h4⟩ :=
          ih t q existing row hwf hrow hqid hquuid
        exact ⟨q', t', hstep.trans hres, h1, h2, h3, h4⟩
      · rcases hT : sepTagFromSoundevent t pt.tag with ⟨tg, t1⟩
        have hspec := sepTag_upsert_spec t pt.tag hwf
        rw [hT] at hspec
        dsimp only at hspec
        obtain ⟨hwf1, htagid, hR1, hTR1, hC1, hCP1, hN1, hV1⟩ := hspec
        have hrow1 : t1.sepRows.find? (fun r => r.uuid == row.uuid)
            = some row := by
          rw [hR1]; exact hrow
        have hmemrow : row ∈ t1.sepRows := List.mem_of_find?_eq_some hrow1
        have hfid : t1.sepRows.find? (fun r => r.id == q.id) = some row := by
          rw [hqid]
          exact find?_by_id_of_mem_nodup hwf1.2.1 hmemrow
        cases hhas : t1.sepTagRows.any (fun r =>
            r.sound_event_prediction_id == q.id && r.tag_id == tg.id) with
        | true =>
            have hadd := sepAddTag_hit pt.score hfid hhas
            have hstep : sepImportTags t q existing (pt :: rest)
                = sepImportTags
                    { t1 with cacheByUuid := (t1.cacheByUuid.setitem
                        (sepValidate t1 row).uuid (sepValidate t1 row)) }
                    (sepValidate t1 row) existing rest := by
              simp only [sepImportTags]
              rw [if_neg hmem, hT]
              dsimp only
              rw [hadd]
            have hwf2 : sepWF { t1 with cacheByUuid := (t1.cacheByUuid.setitem
                (sepValidate t1 row).uuid (sepValidate t1 row)) } := by
              obtain ⟨hcoh1, hnd1, hid1, hfk1⟩ := hwf1
              refine ⟨?_, hnd1, hid1, hfk1⟩
              intro p hp
              rcases LRUCache.mem_setitem hp with rfl | ⟨hpe, -⟩
              · exact ⟨rfl, row, hrow1, rfl⟩
              · exact hcoh1 p hpe
            obtain ⟨q', t', hres, h1, h2, h3, h4⟩ :=
              ih { t1 with cacheByUuid := (t1.cacheByUuid.setitem
                    (sepValidate t1 row).uuid (sepValidate t1 row)) }
                (sepValidate t1 row) existing row hwf2 hrow1 rfl rfl
            exact ⟨q', t', hstep.trans hres, h1, h2, h3.trans hR1,
              h4.trans hCP1⟩
        | false =>
            have hadd := sepAddTag_fresh pt.score hfid hhas
            have hstep : sepImportTags t q existing (pt :: rest)
                = sepImportTags
                    { t1 with
                      sepTagRows := t1.sepTagRows ++ [⟨q.id, tg.id, pt.score⟩],
                      cacheByUuid := (t1.cacheByUuid.setitem
                        (sepValidate { t1 with sepTagRows :=
                            t1.sepTagRows ++ [⟨q.id, tg.id, pt.score⟩] } row).uuid
                        (sepValidate { t1 with sepTagRows :=
                            t1.sepTagRows ++ [⟨q.id, tg.id, pt.score⟩] } row)) }
                    (sepValidate { t1 with sepTagRows :=
                        t1.sepTagRows ++ [⟨q.id, tg.id, pt.score⟩] } row)
                    existing rest := by
              simp only [sepImportTags]
              rw [if_neg hmem, hT]
              dsimp only
              rw [hadd]
            have hwf2 : sepWF { t1 with
                sepTagRows := t1.sepTagRows ++ [⟨q.id, tg.id, pt.score⟩],
                cacheByUuid := (t1.cacheByUuid.setitem
                  (sepValidate { t1 with sepTagRows :=
                      t1.sepTagRows ++ [⟨q.id, tg.id, pt.score⟩] } row).uuid
                  (sepValidate { t1 with sepTagRows :=
                      t1.sepTagRows ++ [⟨q.id, tg.id, pt.score⟩] } row)) } := by
              obtain ⟨hcoh1, hnd1, hid1, hfk1⟩ := hwf1
              refine ⟨?_, hnd1, hid1, ?_⟩
              · intro p hp
                rcases LRUCache.mem_setitem hp with rfl | ⟨hpe, hne⟩
                · exact ⟨rfl, row, hrow1, rfl⟩
                · obtain ⟨hk, rowv, hrowv, hvalv⟩ := hcoh1 p hpe
                  refine ⟨hk, rowv, hrowv, ?_⟩
                  rw [hvalv]
                  unfold sepValidate
                  dsimp only
                  have hneid : rowv.id ≠ row.id := by
                    intro hcon
                    have heq : rowv = row :=
                      id_eq_of_mem_nodup hnd1
                        (List.mem_of_find?_eq_some hrowv) hmemrow hcon
                    apply hne
                    rw [hk]
                    have : p.2.uuid = rowv.uuid := by rw [hvalv]; rfl
                    rw [this, heq]
                    rfl
                  have hstab : sepTagsOf
                      (t1.sepTagRows ++ [⟨q.id, tg.id, pt.score⟩]) t1.tagsDb
                      rowv.id
                    = sepTagsOf t1.sepTagRows t1.tagsDb rowv.id := by
                    apply sepTagsOf_append_row_ne
                    show q.id ≠ rowv.id
                    rw [hqid]
                    exact fun hcon => hneid hcon.symm
                  rw [hstab]
              · intro tr htr
                rcases List.mem_append.mp htr with htr' | htr'
                · exact hfk1 tr htr'
                · have : tr = ⟨q.id, tg.id, pt.score⟩ := by
                    simpa using htr'
                  rw [this]
                  exact htagid
            obtain ⟨q', t', hres, h1, h2, h3, h4⟩ :=
              ih { t1 with
                    sepTagRows := t1.sepTagRows ++ [⟨q.id, tg.id, pt.score⟩],
                    cacheByUuid := (t1.cacheByUuid.setitem
                      (sepValidate { t1 with sepTagRows :=
                          t1.sepTagRows ++ [⟨q.id, tg.id, pt.score⟩] } row).uuid
                      (sepValidate { t1 with sepTagRows :=
                          t1.sepTagRows ++ [⟨q.id, tg.id, pt.score⟩] } row)) }
                (sepValidate { t1 with sepTagRows :=
                    t1.sepTagRows ++ [⟨q.id, tg.id, pt.score⟩] } row)
                existing row hwf2 hrow1 rfl rfl
            exact ⟨q', t', hstep.trans hres, h1, h2, h3.trans hR1,
              h4.trans hCP1⟩

theorem sepFromSoundevent_spec (s : SEPState) (d : SESoundEventPrediction)
    (cpid : Nat) (hwf : sepWF s)
    (hclip : (s.clipPredRows.find? (fun r => r.id == cpid)).isSome) :
    ∃ p s', sepFromSoundevent s d cpid = (.ok p, s') ∧
      p.uuid = d.uuid ∧ sepWF s' ∧ s'.clipPredRows = s.clipPredRows ∧
      ((s.sepRows.find? (fun r => r.uuid == d.uuid)).isSome →
        s'.sepRows = s.sepRows) ∧
      (s'.sepRows.find? (fun r => r.uuid == d.uuid)).isSome ∧
      s'.sepRows.length ≤ s.sepRows.length + 1 := by
  cases hg : s.cacheByUuid.getitem d.uuid with
  | some vc =>
      obtain ⟨v, c'⟩ := vc
      obtain ⟨hmem, -, hsub⟩ := LRUCache.mem_getitem hg
      obtain ⟨hkey, row, hrow, hval⟩ := hwf.1 (d.uuid, v) hmem
      have hkey' : d.uuid = v.uuid := hkey
      have hval' : v = sepValidate s row := hval
      have hruuid : row.uuid = d.uuid := by simpa using List.find?_some hrow
      have hwf1 : sepWF { s with cacheByUuid := c' } := by
        obtain ⟨hcoh, hnd, hid, hfk⟩ := hwf
        refine ⟨?_, hnd, hid, hfk⟩
        intro p hp
        rcases hsub p hp with rfl | ⟨hpe, -⟩
        · exact ⟨hkey, row, hrow, hval⟩
        · exact hcoh p hpe
      have hvid : v.id = row.id := by rw [hval']; rfl
      have hvuuid : v.uuid = row.uuid := by rw [hval']; rfl
      have hrowR : ({ s with cacheByUuid := c' } : SEPState).sepRows.find?
          (fun r => r.uuid == row.uuid) = some row := by
        show s.sepRows.find? (fun r => r.uuid == row.uuid) = some row
        rw [hruuid]
        exact hrow
      obtain ⟨p, s', hloop, hpuuid, hwf', hR', hCP'⟩ :=
        sepImportTags_spec d.tags { s with cacheByUuid := c' } v
          (v.predicted_tags.map (fun t => (t.tag.key, t.tag.value))) row
          hwf1 hrowR hvid hvuuid
      have hres : sepFromSoundevent s d cpid
          = sepImportTags { s with cacheByUuid := c' } v
              (v.predicted_tags.map (fun t => (t.tag.key, t.tag.value)))
              d.tags := by
        simp [sepFromSoundevent, sepGetByUuid, hg]
      refine ⟨p, s', hres.trans hloop, hpuuid.trans hruuid, hwf', hCP',
        ?_, ?_, ?_⟩
      · intro _
        exact hR'
      · rw [hR']
        show ((s.sepRows.find? (fun r => r.uuid == d.uuid)).isSome = true)
        rw [hrow]
        rfl
      · rw [hR']
        exact Nat.le_succ _
  | none =>
      cases hr : s.sepRows.find? (fun r => r.uuid == d.uuid) with
      | some row =>
          have hruuid : row.uuid = d.uuid := by simpa using List.find?_some hr
          have hwf1 : sepWF { s with cacheByUuid :=
              (s.cacheByUuid.setitem d.uuid (sepValidate s row)) } := by
            obtain ⟨hcoh, hnd, hid, hfk⟩ := hwf
            refine ⟨?_, hnd, hid, hfk⟩
            intro p hp
            rcases LRUCache.mem_setitem hp with rfl | ⟨hpe, -⟩
            · exact ⟨hruuid.symm, row, hr, rfl⟩
            · exact hcoh p hpe
          have hrowR : ({ s with cacheByUuid :=
              (s.cacheByUuid.setitem d.uuid (sepValidate s row)) }
                : SEPState).sepRows.find?
              (fun r => r.uuid == row.uuid) = some row := by
            show s.sepRows.find? (fun r => r.uuid == row.uuid) = some row
            rw [hruuid]
            exact hr
          obtain ⟨p, s', hloop, hpuuid, hwf', hR', hCP'⟩ :=
            sepImportTags_spec d.tags
              { s with cacheByUuid :=
                  (s.cacheByUuid.setitem d.uuid (sepValidate s row)) }
              (sepValidate s row)
              ((sepValidate s row).predicted_tags.map
                (fun t => (t.tag.key, t.tag.value))) row
              hwf1 hrowR rfl rfl
          have hres : sepFromSoundevent s d cpid
              = sepImportTags
                  { s with cacheByUuid :=
                      (s.cacheByUuid.setitem d.uuid (sepValidate s row)) }
                  (sepValidate s row)
                  ((sepValidate s row).predicted_tags.map
                    (fun t => (t.tag.key, t.tag.value))) d.tags := by
            simp [sepFromSoundevent, sepGetByUuid, hg, hr]
          refine ⟨p, s', hres.trans hloop, hpuuid.trans hruuid, hwf', hCP',
            ?_, ?_, ?_⟩
          · intro _
            exact hR'
          · rw [hR']
            show ((s.sepRows.find? (fun r => r.uuid == d.uuid)).isSome = true)
            rw [hr]
            rfl
          · rw [hR']
            exact Nat.le_succ _
      | none =>
          obtain ⟨cpr, hcpr⟩ := Option.isSome_iff_exists.mp hclip
          rcases hSE : soundEventFromSoundevent s d.sound_event with ⟨se, sE⟩
          have hSEf := soundEventFromSoundevent_fields s d.sound_event
          rw [hSE] at hSEf
          dsimp only at hSEf
          obtain ⟨hE1, hE2, hE3, hE4, hE5, hE6⟩ := hSEf
          have hwfE : sepWF sE := sepWF_of_eq hwf hE2 hE3 hE4 hE5 hE6
          have hrE : sE.sepRows.find? (fun r => r.uuid == d.uuid) = none := by
            rw [hE2]
            exact hr
          have hany : sE.sepRows.any (fun r => r.uuid == d.uuid) = false := by
            rw [List.any_eq_false]
            intro x hx
            exact List.find?_eq_none.mp hrE x hx
          have hfind : (sE.sepRows
                ++ [(⟨sE.nextId, d.uuid, cpr.id, se.id,
                      d.score⟩ : SEPRow)]).find?
                (fun r => r.uuid == d.uuid)
              = some (⟨sE.nextId, d.uuid, cpr.id, se.id, d.score⟩ : SEPRow) := by
            rw [find?_append_of_none _ hrE, List.find?_cons_of_pos _ (by simp)]
          have hwf2 : sepWF { sE with
              sepRows := sE.sepRows
                ++ [⟨sE.nextId, d.uuid, cpr.id, se.id, d.score⟩],
              nextId := sE.nextId + 1,
              cacheByUuid := (sE.cacheByUuid.setitem d.uuid
                (sepValidate { sE with
                    sepRows := sE.sepRows
                      ++ [⟨sE.nextId, d.uuid, cpr.id, se.id, d.score⟩],
                    nextId := sE.nextId + 1 }
                  ⟨sE.nextId, d.uuid, cpr.id, se.id, d.score⟩)) } := by
            obtain ⟨hcohE, hndE, hidE, hfkE⟩ := hwfE
            refine ⟨?_, ?_, ?_, hfkE⟩
            · intro p hp
              rcases LRUCache.mem_setitem hp with rfl | ⟨hpe, -⟩
              · exact ⟨rfl, ⟨sE.nextId, d.uuid, cpr.id, se.id, d.score⟩,
                  hfind, rfl⟩
              · obtain ⟨hk, rowv, hrowv, hvalv⟩ := hcohE p hpe
                exact ⟨hk, rowv, find?_append_of_some hrowv, hvalv⟩
            · rw [List.pairwise_append]
              refine ⟨hndE, List.pairwise_singleton _ _, ?_⟩
              intro a ha b hb
              have hb' : b = ⟨sE.nextId, d.uuid, cpr.id, se.id, d.score⟩ := by
                simpa using hb
              rw [hb']
              exact Nat.ne_of_lt (hidE a ha)
            · intro r hrr
              rcases List.mem_append.mp hrr with h' | h'
              · exact Nat.lt_succ_of_lt (hidE r h')
              · have : r = ⟨sE.nextId, d.uuid, cpr.id, se.id, d.score⟩ := by
                  simpa using h'
                rw [this]
                exact Nat.lt_succ_self _
          have hrowR : ({ sE with
              sepRows := sE.sepRows
                ++ [⟨sE.nextId, d.uuid, cpr.id, se.id, d.score⟩],
              nextId := sE.nextId + 1,
              cacheByUuid := (sE.cacheByUuid.setitem d.uuid
                (sepValidate { sE with
                    sepRows := sE.sepRows
                      ++ [⟨sE.nextId, d.uuid, cpr.id, se.id, d.score⟩],
                    nextId := sE.nextId + 1 }
                  ⟨sE.nextId, d.uuid, cpr.id, se.id, d.score⟩)) }
                : SEPState).sepRows.find?
              (fun r => r.uuid
                == (⟨sE.nextId, d.uuid, cpr.id, se.id, d.score⟩ : SEPRow).uuid)
              = some (⟨sE.nextId, d.uuid, cpr.id, se.id, d.score⟩ : SEPRow) := by
            exact hfind
          obtain ⟨p, s', hloop, hpuuid, hwf', hR', hCP'⟩ :=
            sepImportTags_spec d.tags
              { sE with
                sepRows := sE.sepRows
                  ++ [⟨sE.nextId, d.uuid, cpr.id, se.id, d.score⟩],
                nextId := sE.nextId + 1,
                cacheByUuid := (sE.cacheByUuid.setitem d.uuid
                  (sepValidate { sE with
                      sepRows := sE.sepRows
                        ++ [⟨sE.nextId, d.uuid, cpr.id, se.id, d.score⟩],
                      nextId := sE.nextId + 1 }
                    ⟨sE.nextId, d.uuid, cpr.id, se.id, d.score⟩)) }
              (sepValidate { sE with
                  sepRows := sE.sepRows
                    ++ [⟨sE.nextId, d.uuid, cpr.id, se.id, d.score⟩],
                  nextId := sE.nextId + 1 }
                ⟨sE.nextId, d.uuid, cpr.id, se.id, d.score⟩)
              ((sepValidate { sE with
                  sepRows := sE.sepRows
                    ++ [⟨sE.nextId, d.uuid, cpr.id, se.id, d.score⟩],
                  nextId := sE.nextId + 1 }
                ⟨sE.nextId, d.uuid, cpr.id, se.id, d.score⟩).predicted_tags.map
                  (fun t => (t.tag.key, t.tag.value)))
              ⟨sE.nextId, d.uuid, cpr.id, se.id, d.score⟩
              hwf2 hrowR rfl rfl
          have hres : sepFromSoundevent s d cpid
              = sepImportTags
                  { sE with
                    sepRows := sE.sepRows
                      ++ [⟨sE.nextId, d.uuid, cpr.id, se.id, d.score⟩],
                    nextId := sE.nextId + 1,
                    cacheByUuid := (sE.cacheByUuid.setitem d.uuid
                      (sepValidate { sE with
                          sepRows := sE.sepRows
                            ++ [⟨sE.nextId, d.uuid, cpr.id, se.id, d.score⟩],
                          nextId := sE.nextId + 1 }
                        ⟨sE.nextId, d.uuid, cpr.id, se.id, d.score⟩)) }
                  (sepValidate { sE with
                      sepRows := sE.sepRows
                        ++ [⟨sE.nextId, d.uuid, cpr.id, se.id, d.score⟩],
                      nextId := sE.nextId + 1 }
                    ⟨sE.nextId, d.uuid, cpr.id, se.id, d.score⟩)
                  ((sepValidate { sE with
                      sepRows := sE.sepRows
                        ++ [⟨sE.nextId, d.uuid, cpr.id, se.id, d.score⟩],
                      nextId := sE.nextId + 1 }
                    ⟨sE.nextId, d.uuid, cpr.id, se.id, d.score⟩).predicted_tags.map
                      (fun t => (t.tag.key, t.tag.value))) d.tags := by
            simp [sepFromSoundevent, sepGetByUuid, hg, hr,
              sepCreateFromSoundevent, hcpr, hSE, sepCreate, hany, sepValidate]
          refine ⟨p, s', hres.trans hloop, hpuuid, hwf', hCP'.trans hE1,
            ?_, ?_, ?_⟩
          · intro hcon
            exact absurd hcon (by simp)
          · rw [hR']
            show (((sE.sepRows
                ++ [(⟨sE.nextId, d.uuid, cpr.id, se.id, d.score⟩ : SEPRow)]).find?
                (fun r => r.uuid == d.uuid)).isSome = true)
            rw [hfind]
            rfl
          · rw [hR']
            show (sE.sepRows
                ++ [(⟨sE.nextId, d.uuid, cpr.id, se.id, d.score⟩ : SEPRow)]).length
              ≤ s.sepRows.length + 1
            simp [hE2]

/-- Claim C1: for every soundevent entity handled by a `from_soundevent`
upsert — evaluation set, user run, sound event prediction — when an
internal entity with the same UUID already exists the function fetches and
returns it instead of creating a new one, and calling `from_soundevent`
twice with the same data creates the underlying entity at most once (the
second call adds no row to the entity's table) while both calls return an
object with the same UUID.  States are constrained only by cache/database
coherence (`esWF`/`urWF`/`sepWF`), an invariant of the API. -/
theorem claim_C1_from_soundevent_upsert_by_uuid :
    (∀ (s : ESState) (d : SEEvaluationSet), esWF s →
      ∃ obj1 s1 obj2 s2,
        esFromSoundevent s d = (.ok obj1, s1) ∧
        esFromSoundevent s1 d = (.ok obj2, s2) ∧
        obj1.uuid = d.uuid ∧ obj2.uuid = obj1.uuid ∧
        (∀ row, s.evalsets.find? (fun r => r.uuid == d.uuid) = some row →
          s1.evalsets = s.evalsets ∧ obj1 = esValidate s row) ∧
        s2.evalsets = s1.evalsets ∧
        s1.evalsets.length ≤ s.evalsets.length + 1) ∧
    (∀ (s : URState) (ps : SEPredictionSet) (user : SEUser), urWF s →
      ∃ run1 s1 run2 s2,
        urFromSoundevent s ps user = (.ok run1, s1) ∧
        urFromSoundevent s1 ps user = (.ok run2, s2) ∧
        run1.uuid = ps.uuid ∧ run2.uuid = run1.uuid ∧
        (∀ row, s.userRuns.find? (fun r => r.uuid == ps.uuid) = some row →
          s1.userRuns = s.userRuns ∧ run1 = row) ∧
        s2.userRuns = s1.userRuns ∧
        s1.userRuns.length ≤ s.userRuns.length + 1) ∧
    (∀ (s : SEPState) (d : SESoundEventPrediction) (cpid : Nat), sepWF s →
      (s.clipPredRows.find? (fun r => r.id == cpid)).isSome →
      ∃ p1 s1 p2 s2,
        sepFromSoundevent s d cpid = (.ok p1, s1) ∧
        sepFromSoundevent s1 d cpid = (.ok p2, s2) ∧
        p1.uuid = d.uuid ∧ p2.uuid = p1.uuid ∧
        ((s.sepRows.find? (fun r => r.uuid == d.uuid)).isSome →
          s1.sepRows = s.sepRows) ∧
        s2.sepRows = s1.sepRows ∧
        s1.sepRows.length ≤ s.sepRows.length + 1) := by
  refine ⟨?_, ?_, ?_⟩
  · intro s d hwf
    obtain ⟨obj1, s1, hres1, huuid1, hwf1, hex1, hsome1, hlen1⟩ :=
      esFromSoundevent_spec s d hwf
    obtain ⟨obj2, s2, hres2, huuid2, hwf2, hex2, hsome2, hlen2⟩ :=
      esFromSoundevent_spec s1 d hwf1
    obtain ⟨row1, hrow1⟩ := Option.isSome_iff_exists.mp hsome1
    obtain ⟨hs2, -⟩ := hex2 row1 hrow1
    exact ⟨obj1, s1, obj2, s2, hres1, hres2, huuid1,
      huuid2.trans huuid1.symm, hex1, hs2, hlen1⟩
  · intro s ps user hwf
    obtain ⟨run1, s1, hres1, huuid1, hwf1, hex1, hsome1, hlen1⟩ :=
      urFromSoundevent_spec s ps user hwf
    obtain ⟨run2, s2, hres2, huuid2, hwf2, hex2, hsome2, hlen2⟩ :=
      urFromSoundevent_spec s1 ps user hwf1
    obtain ⟨row1, hrow1⟩ := Option.isSome_iff_exists.mp hsome1
    obtain ⟨hs2, -⟩ := hex2 row1 hrow1
    exact ⟨run1, s1, run2, s2, hres1, hres2, huuid1,
      huuid2.trans huuid1.symm, hex1, hs2, hlen1⟩
  · intro s d cpid hwf hclip
    obtain ⟨p1, s1, hres1, huuid1, hwf1, hcp1, hex1, hsome1, hlen1⟩ :=
      sepFromSoundevent_spec s d cpid hwf hclip
    have hclip1 : (s1.clipPredRows.find? (fun r => r.id == cpid)).isSome := by
      rw [hcp1]; exact hclip
    obtain ⟨p2, s2, hres2, huuid2, hwf2, hcp2, hex2, hsome2, hlen2⟩ :=
      sepFromSoundevent_spec s1 d cpid hwf1 hclip1
    exact ⟨p1, s1, p2, s2, hres1, hres2, huuid1,
      huuid2.trans huuid1.symm, hex1, hex2 hsome1, hlen1⟩

/-- Application of C1 at concrete coherent states for all three entity
kinds. -/
theorem claim_C1_witness :
    (∃ obj1 s1 obj2 s2,
      esFromSoundevent esInit ⟨3, 1, "a", "b", [], []⟩ = (.ok obj1, s1) ∧
      esFromSoundevent s1 ⟨3, 1, "a", "b", [], []⟩ = (.ok obj2, s2) ∧
      obj1.uuid = (⟨3, 1, "a", "b", [], []⟩ : SEEvaluationSet).uuid ∧
      obj2.uuid = obj1.uuid ∧
      (∀ row, esInit.evalsets.find? (fun r => r.uuid
          == (⟨3, 1, "a", "b", [], []⟩ : SEEvaluationSet).uuid) = some row →
        s1.evalsets = esInit.evalsets ∧ obj1 = esValidate esInit row) ∧
      s2.evalsets = s1.evalsets ∧
      s1.evalsets.length ≤ esInit.evalsets.length + 1) ∧
    (∃ run1 s1 run2 s2,
      urFromSoundevent ⟨[], [], [], [], LRUCache.empty 1000, 0⟩
          ⟨7, 0, []⟩ ⟨2⟩ = (.ok run1, s1) ∧
      urFromSoundevent s1 ⟨7, 0, []⟩ ⟨2⟩ = (.ok run2, s2) ∧
      run1.uuid = (⟨7, 0, []⟩ : SEPredictionSet).uuid ∧
      run2.uuid = run1.uuid ∧
      (∀ row, (⟨[], [], [], [], LRUCache.empty 1000, 0⟩
          : URState).userRuns.find? (fun r => r.uuid
            == (⟨7, 0, []⟩ : SEPredictionSet).uuid) = some row →
        s1.userRuns = (⟨[], [], [], [], LRUCache.empty 1000, 0⟩
          : URState).userRuns ∧ run1 = row) ∧
      s2.userRuns = s1.userRuns ∧
      s1.userRuns.length ≤ (⟨[], [], [], [], LRUCache.empty 1000, 0⟩
        : URState).userRuns.length + 1) ∧
    (∃ p1 s1 p2 s2,
      sepFromSoundevent ⟨[⟨0, 5⟩], [], [], [], [], LRUCache.empty 1000, 1⟩
          ⟨9, 6, 4, []⟩ 0 = (.ok p1, s1) ∧
      sepFromSoundevent s1 ⟨9, 6, 4, []⟩ 0 = (.ok p2, s2) ∧
      p1.uuid = (⟨9, 6, 4, []⟩ : SESoundEventPrediction).uuid ∧
      p2.uuid = p1.uuid ∧
      (((⟨[⟨0, 5⟩], [], [], [], [], LRUCache.empty 1000, 1⟩
          : SEPState).sepRows.find? (fun r => r.uuid
            == (⟨9, 6, 4, []⟩ : SESoundEventPrediction).uuid)).isSome →
        s1.sepRows = (⟨[⟨0, 5⟩], [], [], [], [], LRUCache.empty 1000, 1⟩
          : SEPState).sepRows) ∧
      s2.sepRows = s1.sepRows ∧
      s1.sepRows.length ≤ (⟨[⟨0, 5⟩], [], [], [], [], LRUCache.empty 1000, 1⟩
        : SEPState).sepRows.length + 1) :=
  ⟨claim_C1_from_soundevent_upsert_by_uuid.1 esInit ⟨3, 1, "a", "b", [], []⟩
      (by intro p hp; simp [esInit, LRUCache.empty] at hp),
   claim_C1_from_soundevent_upsert_by_uuid.2.1
      ⟨[], [], [], [], LRUCache.empty 1000, 0⟩ ⟨7, 0, []⟩ ⟨2⟩
      (by intro p hp; simp [LRUCache.empty] at hp),
   claim_C1_from_soundevent_upsert_by_uuid.2.2
      ⟨[⟨0, 5⟩], [], [], [], [], LRUCache.empty 1000, 1⟩ ⟨9, 6, 4, []⟩ 0
      ⟨by intro p hp; simp [LRUCache.empty] at hp,
       by simp,
       by intro r hr; simp at hr,
       by intro tr htr; simp at htr⟩
      (by rfl)⟩

end Whombat
